import Mathlib

/-!
Verification development for the narrative-simulation core of the
gameJam2025 office game: event bus, virtual clock, timeline dispatcher,
task graph, trigger evaluator and elevator state machine, shallowly
embedded from the Python sources (`src/core/event_bus.py`,
`src/core/timer.py`, `src/core/timeline.py`, `src/world/tasks.py`,
`src/world/triggers.py`, `src/world/elevator.py`).

Real-valued quantities (seconds, positions) are modelled as rationals;
the operations involved (addition, multiplication by the speed factor,
comparisons, clamping) are exact on the inputs considered.
-/

/-- Floor of a rational number, computed from its normalised
numerator/denominator (used where the Python code truncates a timestamp
to a minute via `strftime`). -/
def qfloor (q : ℚ) : ℤ := Int.fdiv q.num q.den

/-- Two-digit zero-padded decimal rendering, as `strftime` produces for
`%H` and `%M`. -/
def pad2 (n : ℕ) : String := if n < 10 then "0" ++ toString n else toString n

/-- Minute-of-day index of a timestamp given in seconds since midnight
(the clock's fixed date never changes within a session). -/
def minuteOfDay (t : ℚ) : ℤ := (Int.fdiv (qfloor t) 60) % 1440

/-- `strftime("%H:%M")` of a timestamp in seconds since midnight. -/
def minuteStr (t : ℚ) : String :=
  let m := (minuteOfDay t).toNat
  pad2 (m / 60) ++ ":" ++ pad2 (m % 60)

/-! ## GameClock (`src/core/timer.py`) -/

/-- State of `GameClock`: times are seconds since midnight of the fixed
date used by `_parse_time`. `lastMinuteEmitted` mirrors
`_last_minute_emitted` (`None` initially). -/
structure GameClock where
  speed : ℚ
  startTime : ℚ
  endTime : ℚ
  currentTime : ℚ
  isRunning : Bool
  totalRealSeconds : ℚ
  lastMinuteEmitted : Option String
  deriving DecidableEq, Repr

namespace GameClock

/-- `GameClock.__init__` with start/end given as `HH:MM` pairs already
parsed to (hour, minute) as `_parse_time` does. -/
def init (sh sm eh em : ℕ) (speed : ℚ) : GameClock :=
  { speed := speed
    startTime := (sh * 3600 + sm * 60 : ℕ)
    endTime := (eh * 3600 + em * 60 : ℕ)
    currentTime := (sh * 3600 + sm * 60 : ℕ)
    isRunning := false
    totalRealSeconds := 0
    lastMinuteEmitted := none }

/-- `GameClock.start`. -/
def start (c : GameClock) : GameClock := { c with isRunning := true }

/-- `GameClock.stop`. -/
def stop (c : GameClock) : GameClock := { c with isRunning := false }

/-- `GameClock.reset`: only `current_time` and `total_real_seconds` are
assigned. -/
def reset (c : GameClock) : GameClock :=
  { c with currentTime := c.startTime, totalRealSeconds := 0 }

/-- `GameClock.is_deadline`. -/
def isDeadline (c : GameClock) : Bool := c.endTime ≤ c.currentTime

/-- `GameClock.get_time_str`. -/
def getTimeStr (c : GameClock) : String := minuteStr c.currentTime

/-- The time-advancing half of `GameClock.tick`: accumulate the real
seconds, advance `current_time` by `dt * speed`, clamp to `end_time` and
stop if the clamp was needed (`self.stop()` is only called in the
overshoot branch). -/
def advance (c : GameClock) (dt : ℚ) : GameClock :=
  if c.endTime < c.currentTime + dt * c.speed then
    { c with currentTime := c.endTime,
             totalRealSeconds := c.totalRealSeconds + dt,
             isRunning := false }
  else
    { c with currentTime := c.currentTime + dt * c.speed,
             totalRealSeconds := c.totalRealSeconds + dt }

/-- The emission half of `GameClock.tick`: emit
`TIME_TICK`, `TIME_REACHED` and `TIME_REACHED:<HH:MM>` when the minute
string differs from `_last_minute_emitted`. -/
def emitMinute (c : GameClock) : GameClock × List String :=
  if c.lastMinuteEmitted ≠ some (minuteStr c.currentTime) then
    ({ c with lastMinuteEmitted := some (minuteStr c.currentTime) },
     ["TIME_TICK", "TIME_REACHED", "TIME_REACHED:" ++ minuteStr c.currentTime])
  else (c, [])

/-- `GameClock.tick`: a no-op when not running or already at the
deadline; otherwise advance-and-clamp, then emit per newly-entered
minute. Returns the updated clock and the topics published on the bus
during the call, in emission order. -/
def tick (c : GameClock) (dt : ℚ) : GameClock × List String :=
  if ¬ c.isRunning ∨ c.isDeadline then (c, [])
  else (c.advance dt).emitMinute

/-- Folding `tick` over a list of frame deltas, accumulating every
emitted topic. -/
def ticks (c : GameClock) (dts : List ℚ) : GameClock × List String :=
  match dts with
  | [] => (c, [])
  | d :: rest =>
      let (c1, ev1) := tick c d
      let (c2, ev2) := ticks c1 rest
      (c2, ev1 ++ ev2)

/-- The clock invariant of the spec: `start_time ≤ current_time ≤
end_time`. -/
def Inv (c : GameClock) : Prop :=
  c.startTime ≤ c.currentTime ∧ c.currentTime ≤ c.endTime

end GameClock

/-! ### Clock lemmas -/

theorem GameClock.emitMinute_fst_currentTime (c : GameClock) :
    c.emitMinute.1.currentTime = c.currentTime := by
  unfold emitMinute
  split <;> rfl

theorem GameClock.emitMinute_fst_isRunning (c : GameClock) :
    c.emitMinute.1.isRunning = c.isRunning := by
  unfold emitMinute
  split <;> rfl

theorem GameClock.emitMinute_fst_frame (c : GameClock) :
    c.emitMinute.1.startTime = c.startTime ∧
    c.emitMinute.1.endTime = c.endTime ∧
    c.emitMinute.1.speed = c.speed := by
  unfold emitMinute
  split <;> exact ⟨rfl, rfl, rfl⟩

theorem GameClock.advance_frame (c : GameClock) (dt : ℚ) :
    (c.advance dt).startTime = c.startTime ∧
    (c.advance dt).endTime = c.endTime ∧
    (c.advance dt).speed = c.speed := by
  unfold advance
  split <;> exact ⟨rfl, rfl, rfl⟩

theorem GameClock.tick_frame (c : GameClock) (dt : ℚ) :
    (c.tick dt).1.startTime = c.startTime ∧
    (c.tick dt).1.endTime = c.endTime ∧
    (c.tick dt).1.speed = c.speed := by
  unfold tick
  split
  · exact ⟨rfl, rfl, rfl⟩
  · obtain ⟨h1, h2, h3⟩ := GameClock.emitMinute_fst_frame (c.advance dt)
    obtain ⟨g1, g2, g3⟩ := GameClock.advance_frame c dt
    exact ⟨h1.trans g1, h2.trans g2, h3.trans g3⟩

theorem GameClock.tick_deadline_noop (c : GameClock) (dt : ℚ)
    (h : c.isDeadline = true) : c.tick dt = (c, []) := by
  unfold tick
  simp [h]

theorem GameClock.tick_inv (c : GameClock) (dt : ℚ) (hdt : 0 ≤ dt)
    (hsp : 0 ≤ c.speed) (hinv : c.Inv) : (c.tick dt).1.Inv := by
  unfold tick
  split
  · exact hinv
  · have hs : 0 ≤ dt * c.speed := mul_nonneg hdt hsp
    obtain ⟨h1, h2⟩ := hinv
    have hcur := GameClock.emitMinute_fst_currentTime (c.advance dt)
    obtain ⟨f1, f2, _⟩ := GameClock.emitMinute_fst_frame (c.advance dt)
    constructor
    · rw [f1, hcur]
      unfold advance
      split
      next => show c.startTime ≤ c.endTime; linarith
      next => show c.startTime ≤ c.currentTime + dt * c.speed; linarith
    · rw [f2, hcur]
      unfold advance
      split
      next => show c.endTime ≤ c.endTime; linarith
      next h' => show c.currentTime + dt * c.speed ≤ c.endTime; exact le_of_not_lt h'

theorem GameClock.ticks_inv (dts : List ℚ) (c : GameClock)
    (hd : ∀ d ∈ dts, 0 ≤ d) (hsp : 0 ≤ c.speed) (hinv : c.Inv) :
    (c.ticks dts).1.Inv ∧
    (c.ticks dts).1.startTime = c.startTime ∧
    (c.ticks dts).1.endTime = c.endTime ∧
    (c.ticks dts).1.speed = c.speed := by
  induction dts generalizing c with
  | nil => exact ⟨hinv, rfl, rfl, rfl⟩
  | cons d rest ih =>
      have hd0 : 0 ≤ d := hd d (List.mem_cons_self d rest)
      have hdr : ∀ x ∈ rest, 0 ≤ x := fun x hx => hd x (List.mem_cons_of_mem d hx)
      obtain ⟨f1, f2, f3⟩ := GameClock.tick_frame c d
      have hinv1 : (c.tick d).1.Inv := GameClock.tick_inv c d hd0 hsp hinv
      have hsp1 : 0 ≤ (c.tick d).1.speed := f3 ▸ hsp
      obtain ⟨i1, j1, j2, j3⟩ := ih (c.tick d).1 hdr hsp1 hinv1
      refine ⟨?_, ?_, ?_, ?_⟩ <;>
        simp only [GameClock.ticks] <;>
        first
          | exact i1
          | exact j1.trans f1
          | exact j2.trans f2
          | exact j3.trans f3

theorem GameClock.ticks_deadline_noop (dts : List ℚ) (c : GameClock)
    (h : c.isDeadline = true) : c.ticks dts = (c, []) := by
  induction dts with
  | nil => rfl
  | cons d rest ih =>
      simp only [GameClock.ticks, GameClock.tick_deadline_noop c d h, ih,
        List.nil_append]

theorem GameClock.tick_overshoot (c : GameClock) (dt : ℚ)
    (hr : c.isRunning = true) (hnd : c.isDeadline = false)
    (hover : c.endTime < c.currentTime + dt * c.speed) :
    (c.tick dt).1.currentTime = c.endTime ∧ (c.tick dt).1.isRunning = false := by
  unfold tick
  rw [hr, hnd]
  simp only [not_true, Bool.false_eq_true, or_false, if_false, ite_false,
    Bool.not_true, false_or]
  rw [GameClock.emitMinute_fst_currentTime, GameClock.emitMinute_fst_isRunning]
  unfold advance
  rw [if_pos hover]
  exact ⟨rfl, rfl⟩

theorem GameClock.tick_latch_suppressed (c : GameClock) (dt : ℚ)
    (h : c.lastMinuteEmitted = some (minuteStr (c.tick dt).1.currentTime)) :
    (c.tick dt).2 = [] := by
  unfold tick at h ⊢
  by_cases hg : (¬ c.isRunning ∨ c.isDeadline)
  · rw [if_pos hg]
  · rw [if_neg hg] at h ⊢
    set c1 := c.advance dt with hc1
    rw [GameClock.emitMinute_fst_currentTime] at h
    have hl : c1.lastMinuteEmitted = c.lastMinuteEmitted := by
      rw [hc1]; unfold advance; split <;> rfl
    unfold emitMinute
    rw [if_neg]
    simp only [ne_eq, not_not, hl, h]

/-! ### Clock claims -/

/-- C8: a clock 08:30 → 08:48 at speed 60, started, after a single
`tick(1.0)` reads exactly "08:31" and has published exactly one
`TIME_TICK`, one `TIME_REACHED` and one `TIME_REACHED:08:31`. -/
theorem c8_tick_one_minute :
    (((GameClock.init 8 30 8 48 60).start.tick 1).1.getTimeStr = "08:31") ∧
    (((GameClock.init 8 30 8 48 60).start.tick 1).2
      = ["TIME_TICK", "TIME_REACHED", "TIME_REACHED:08:31"]) ∧
    (((GameClock.init 8 30 8 48 60).start.tick 1).2.count "TIME_TICK" = 1) := by
  have hadv : (GameClock.init 8 30 8 48 60).start.advance 1
      = ⟨60, 30600, 31680, 30660, true, 1, none⟩ := by
    norm_num [GameClock.advance, GameClock.init, GameClock.start]
  have htick : (GameClock.init 8 30 8 48 60).start.tick 1
      = ((GameClock.init 8 30 8 48 60).start.advance 1).emitMinute := by
    norm_num [GameClock.tick, GameClock.init, GameClock.start, GameClock.isDeadline]
  rw [htick, hadv]
  refine ⟨?_, ?_, ?_⟩ <;> decide

/-- C2 (amended): with nonnegative speed and frame deltas, the invariant
`start_time ≤ current_time ≤ end_time` is preserved by any tick
sequence; once the deadline is reached every further tick is a no-op (so
`is_deadline()` stays true and nothing more is emitted); and `is_running`
is forced false on a tick that overshoots `end_time` and is clamped. (A
tick landing exactly on `end_time` does not clear `is_running`; see the
counterexample.) -/
theorem c2_clock_clamp (c : GameClock) (dts : List ℚ)
    (hsp : 0 ≤ c.speed) (hd : ∀ d ∈ dts, 0 ≤ d)
    (hinv : c.startTime ≤ c.currentTime ∧ c.currentTime ≤ c.endTime) :
    ((c.ticks dts).1.startTime ≤ (c.ticks dts).1.currentTime ∧
     (c.ticks dts).1.currentTime ≤ (c.ticks dts).1.endTime ∧
     (c.ticks dts).1.startTime = c.startTime ∧
     (c.ticks dts).1.endTime = c.endTime) ∧
    (c.isDeadline = true → c.ticks dts = (c, [])) ∧
    (∀ d : ℚ, 0 ≤ d → c.isRunning = true → c.isDeadline = false →
      c.endTime < c.currentTime + d * c.speed →
      (c.tick d).1.currentTime = c.endTime ∧ (c.tick d).1.isRunning = false) := by
  obtain ⟨i1, j1, j2, _⟩ := GameClock.ticks_inv dts c hd hsp hinv
  refine ⟨⟨?_, ?_, j1, j2⟩, ?_, ?_⟩
  · exact i1.1
  · exact i1.2
  · exact fun h => GameClock.ticks_deadline_noop dts c h
  · exact fun d hd0 hr hnd hover => GameClock.tick_overshoot c d hr hnd hover

/-- C2 witness: the amended clock theorem applied to the concrete
08:30 → 08:48 clock at speed 60 with two frames. -/
theorem c2_clock_clamp_witness :
    (((((GameClock.init 8 30 8 48 60).start.ticks [1, 2]).1.startTime ≤
        (((GameClock.init 8 30 8 48 60).start.ticks [1, 2]).1.currentTime)) ∧
      ((((GameClock.init 8 30 8 48 60).start.ticks [1, 2]).1.currentTime ≤
        (((GameClock.init 8 30 8 48 60).start.ticks [1, 2]).1.endTime))) ∧
      ((((GameClock.init 8 30 8 48 60).start.ticks [1, 2]).1.startTime =
        ((GameClock.init 8 30 8 48 60).start.startTime))) ∧
      ((((GameClock.init 8 30 8 48 60).start.ticks [1, 2]).1.endTime =
        ((GameClock.init 8 30 8 48 60).start.endTime)))) ∧
     (((GameClock.init 8 30 8 48 60).start.isDeadline = true →
       (GameClock.init 8 30 8 48 60).start.ticks [1, 2] =
         ((GameClock.init 8 30 8 48 60).start, [])) ∧
      (∀ d : ℚ, 0 ≤ d → (GameClock.init 8 30 8 48 60).start.isRunning = true →
        (GameClock.init 8 30 8 48 60).start.isDeadline = false →
        (GameClock.init 8 30 8 48 60).start.endTime <
          (GameClock.init 8 30 8 48 60).start.currentTime +
            d * (GameClock.init 8 30 8 48 60).start.speed →
        ((GameClock.init 8 30 8 48 60).start.tick d).1.currentTime =
          (GameClock.init 8 30 8 48 60).start.endTime ∧
        ((GameClock.init 8 30 8 48 60).start.tick d).1.isRunning = false))) := by
  have h := c2_clock_clamp ((GameClock.init 8 30 8 48 60).start) [1, 2]
    (by norm_num [GameClock.init, GameClock.start])
    (by intro d hd; fin_cases hd <;> norm_num)
    (by norm_num [GameClock.init, GameClock.start])
  exact ⟨⟨h.1.1, h.1.2.1, h.1.2.2.1, h.1.2.2.2⟩, h.2.1, h.2.2⟩

/-- C2 counterexample: a tick that lands exactly on `end_time` reaches
the deadline but leaves `is_running` true — `stop()` only runs in the
overshoot-clamp branch. -/
theorem c2_exact_landing_keeps_running :
    (((GameClock.init 8 30 8 31 60).start.tick 1).1.currentTime =
      ((GameClock.init 8 30 8 31 60).start.tick 1).1.endTime) ∧
    (((GameClock.init 8 30 8 31 60).start.tick 1).1.isDeadline = true) ∧
    (((GameClock.init 8 30 8 31 60).start.tick 1).1.isRunning = true) := by
  have hadv : (GameClock.init 8 30 8 31 60).start.advance 1
      = ⟨60, 30600, 30660, 30660, true, 1, none⟩ := by
    norm_num [GameClock.advance, GameClock.init, GameClock.start]
  have htick : (GameClock.init 8 30 8 31 60).start.tick 1
      = ((GameClock.init 8 30 8 31 60).start.advance 1).emitMinute := by
    norm_num [GameClock.tick, GameClock.init, GameClock.start, GameClock.isDeadline]
  rw [htick, hadv]
  refine ⟨?_, ?_, ?_⟩ <;> decide

/-- C10 (amended): `reset()` sets `current_time` to `start_time` and
`total_real_seconds` to 0 and changes no other field — `is_running` and
the `_last_minute_emitted` latch keep their prior values — and after a
reset and restart a tick that lands on the latched minute emits nothing.
(Once a different minute has been emitted the latch is overwritten, so
the pre-reset minute can be emitted again later; see the
counterexample.) -/
theorem c10_reset_keeps_latch (c : GameClock) (dt : ℚ) :
    (c.reset.currentTime = c.startTime ∧
     c.reset.totalRealSeconds = 0 ∧
     c.reset.isRunning = c.isRunning ∧
     c.reset.lastMinuteEmitted = c.lastMinuteEmitted ∧
     c.reset.speed = c.speed ∧
     c.reset.startTime = c.startTime ∧
     c.reset.endTime = c.endTime) ∧
    (c.lastMinuteEmitted = some (minuteStr ((c.reset.start).tick dt).1.currentTime) →
      ((c.reset.start).tick dt).2 = []) := by
  refine ⟨⟨rfl, rfl, rfl, rfl, rfl, rfl, rfl⟩, ?_⟩
  intro h
  exact GameClock.tick_latch_suppressed (c.reset.start) dt h

/-- C10 witness: after ticking to 08:31, resetting and restarting, a
tick of one second lands on 08:31 again and is suppressed by the
surviving latch. -/
theorem c10_reset_keeps_latch_witness :
    ((((GameClock.init 8 30 8 48 60).start.tick 1).1.reset.currentTime =
       ((GameClock.init 8 30 8 48 60).start.tick 1).1.startTime) ∧
     (((GameClock.init 8 30 8 48 60).start.tick 1).1.reset.lastMinuteEmitted =
       ((GameClock.init 8 30 8 48 60).start.tick 1).1.lastMinuteEmitted)) ∧
    (((((GameClock.init 8 30 8 48 60).start.tick 1).1.reset.start).tick 1).2 = []) := by
  have hA : ((GameClock.init 8 30 8 48 60).start.tick 1).1
      = ⟨60, 30600, 31680, 30660, true, 1, some "08:31"⟩ := by
    have hadv : (GameClock.init 8 30 8 48 60).start.advance 1
        = ⟨60, 30600, 31680, 30660, true, 1, none⟩ := by
      norm_num [GameClock.advance, GameClock.init, GameClock.start]
    have htick : (GameClock.init 8 30 8 48 60).start.tick 1
        = ((GameClock.init 8 30 8 48 60).start.advance 1).emitMinute := by
      norm_num [GameClock.tick, GameClock.init, GameClock.start, GameClock.isDeadline]
    rw [htick, hadv]
    decide
  have h := c10_reset_keeps_latch (((GameClock.init 8 30 8 48 60).start.tick 1).1) 1
  refine ⟨⟨h.1.1, h.1.2.2.2.1⟩, h.2 ?_⟩
  rw [hA]
  have hadv2 : (⟨60, 30600, 31680, 30660, true, 1, some "08:31"⟩ :
      GameClock).reset.start.advance 1
      = ⟨60, 30600, 31680, 30660, true, 1, some "08:31"⟩ := by
    norm_num [GameClock.advance, GameClock.reset, GameClock.start]
  have htick2 : (⟨60, 30600, 31680, 30660, true, 1, some "08:31"⟩ :
      GameClock).reset.start.tick 1
      = ((⟨60, 30600, 31680, 30660, true, 1, some "08:31"⟩ :
          GameClock).reset.start.advance 1).emitMinute := by
    norm_num [GameClock.tick, GameClock.reset, GameClock.start, GameClock.isDeadline]
  rw [htick2, hadv2]
  decide

/-- C10 counterexample: the latch only protects the pre-reset minute
until some other minute is emitted. After reset and restart, a small
tick emits 08:30 and overwrites the latch; the next tick then emits a
fresh TIME_TICK / TIME_REACHED pair for 08:31, the very minute last
emitted before the reset. -/
theorem c10_latch_overwritten_after_reset :
    (((GameClock.init 8 30 8 48 60).start.tick 1).1.lastMinuteEmitted =
      some "08:31") ∧
    (((((GameClock.init 8 30 8 48 60).start.tick 1).1.reset.start.tick
        (1/4)).1.tick 1).2
      = ["TIME_TICK", "TIME_REACHED", "TIME_REACHED:08:31"]) := by
  have hA : ((GameClock.init 8 30 8 48 60).start.tick 1).1
      = ⟨60, 30600, 31680, 30660, true, 1, some "08:31"⟩ := by
    have hadv : (GameClock.init 8 30 8 48 60).start.advance 1
        = ⟨60, 30600, 31680, 30660, true, 1, none⟩ := by
      norm_num [GameClock.advance, GameClock.init, GameClock.start]
    have htick : (GameClock.init 8 30 8 48 60).start.tick 1
        = ((GameClock.init 8 30 8 48 60).start.advance 1).emitMinute := by
      norm_num [GameClock.tick, GameClock.init, GameClock.start, GameClock.isDeadline]
    rw [htick, hadv]
    decide
  refine ⟨by rw [hA], ?_⟩
  rw [hA]
  have hadv2 : (⟨60, 30600, 31680, 30660, true, 1, some "08:31"⟩ :
      GameClock).reset.start.advance (1/4)
      = ⟨60, 30600, 31680, 30615, true, 1/4, some "08:31"⟩ := by
    norm_num [GameClock.advance, GameClock.reset, GameClock.start]
  have htick2 : (⟨60, 30600, 31680, 30660, true, 1, some "08:31"⟩ :
      GameClock).reset.start.tick (1/4)
      = ((⟨60, 30600, 31680, 30660, true, 1, some "08:31"⟩ :
          GameClock).reset.start.advance (1/4)).emitMinute := by
    norm_num [GameClock.tick, GameClock.reset, GameClock.start, GameClock.isDeadline]
  rw [htick2, hadv2]
  have hmin : minuteStr (30615 : ℚ) = "08:30" := by decide
  have hB : ((⟨60, 30600, 31680, 30615, true, 1/4, some "08:31"⟩ :
      GameClock).emitMinute).1
      = ⟨60, 30600, 31680, 30615, true, 1/4, some "08:30"⟩ := by
    unfold GameClock.emitMinute
    simp only [hmin]
    rw [if_pos (by decide)]
  rw [hB]
  have hadv3 : (⟨60, 30600, 31680, 30615, true, 1/4, some "08:30"⟩ :
      GameClock).advance 1
      = ⟨60, 30600, 31680, 30675, true, 5/4, some "08:30"⟩ := by
    norm_num [GameClock.advance]
  have htick3 : (⟨60, 30600, 31680, 30615, true, 1/4, some "08:30"⟩ :
      GameClock).tick 1
      = ((⟨60, 30600, 31680, 30615, true, 1/4, some "08:30"⟩ :
          GameClock).advance 1).emitMinute := by
    norm_num [GameClock.tick, GameClock.isDeadline]
  rw [htick3, hadv3]
  decide

/-! ## EventBus (`src/core/event_bus.py`) -/

/-- A subscriber callback: acts on a state of type `σ` and either
returns the updated state or raises (`Except.error` carries the
exception message). -/
def Handler (σ : Type) : Type := σ → Except String σ

/-- The bus's `_subscribers` mapping, kept as the flat subscription
history; Python's dict-of-lists with per-topic append order is recovered
by `handlersFor`. -/
structure EventBus (σ : Type) where
  subscribers : List (String × Handler σ)

/-- A freshly constructed bus. -/
def EventBus.empty (σ : Type) : EventBus σ := ⟨[]⟩

/-- `EventBus.subscribe`: appends the handler to the topic's list. -/
def EventBus.subscribe {σ : Type} (bus : EventBus σ) (eventType : String)
    (handler : Handler σ) : EventBus σ :=
  ⟨bus.subscribers ++ [(eventType, handler)]⟩

/-- The handler list `self._subscribers.get(event_type, [])`, in
subscription order. -/
def EventBus.handlersFor {σ : Type} (bus : EventBus σ) (eventType : String) :
    List (Handler σ) :=
  bus.subscribers.filterMap (fun p => if p.1 = eventType then some p.2 else none)

/-- The body of `EventBus.emit`'s loop for one handler: run it, catching
an exception (the bare `except ... continue`) by keeping the prior
state. The Bool records whether the handler completed normally. -/
def runHandler {σ : Type} (handler : Handler σ) (s : σ) : σ × Bool :=
  match handler s with
  | .ok s' => (s', true)
  | .error _ => (s, false)

/-- `EventBus.emit`'s loop over a handler list: each handler is invoked,
in order, on the state left by its predecessor; a raising handler is
caught and the loop continues. Returns the final state and one
completion flag per invoked handler. -/
def dispatchList {σ : Type} : List (Handler σ) → σ → σ × List Bool
  | [], s => ([], s).swap
  | handler :: rest, s =>
      let r := runHandler handler s
      let rr := dispatchList rest r.1
      (rr.1, r.2 :: rr.2)

/-- `EventBus.emit`. -/
def EventBus.emit {σ : Type} (bus : EventBus σ) (eventType : String) (s : σ) :
    σ × List Bool :=
  dispatchList (bus.handlersFor eventType) s

/-! ### EventBus lemmas -/

theorem dispatchList_length {σ : Type} (hs : List (Handler σ)) (s : σ) :
    (dispatchList hs s).2.length = hs.length := by
  induction hs generalizing s with
  | nil => rfl
  | cons h rest ih => simp only [dispatchList, List.length_cons, ih]

theorem handlersFor_subscribe {σ : Type} (bus : EventBus σ)
    (eventType t' : String) (handler : Handler σ) :
    (bus.subscribe t' handler).handlersFor eventType
      = bus.handlersFor eventType ++
        (if t' = eventType then [handler] else []) := by
  unfold EventBus.subscribe EventBus.handlersFor
  rw [List.filterMap_append]
  by_cases h : t' = eventType
  · simp [h, List.filterMap]
  · simp [h, List.filterMap]

/-- C7: handlers of a topic are kept and dispatched in subscription
order; `emit` invokes every one of them (one completion flag each) even
when one raises; a raising handler leaves the state it received intact
for its successors, which still run; and `emit` on a topic with no
subscribers returns the state unchanged with no invocation. -/
theorem c7_emit_best_effort {σ : Type} (bus : EventBus σ)
    (eventType : String) (s : σ) :
    ((bus.emit eventType s).2.length = (bus.handlersFor eventType).length) ∧
    (∀ (t' : String) (handler : Handler σ),
      (bus.subscribe t' handler).handlersFor eventType
        = bus.handlersFor eventType ++
          (if t' = eventType then [handler] else [])) ∧
    (bus.handlersFor eventType = [] → bus.emit eventType s = (s, [])) ∧
    (∀ (handler : Handler σ) (rest : List (Handler σ)) (st : σ) (e : String),
      handler st = .error e →
      dispatchList (handler :: rest) st
        = ((dispatchList rest st).1, false :: (dispatchList rest st).2)) := by
  refine ⟨dispatchList_length _ s, ?_, ?_, ?_⟩
  · exact fun t' handler => handlersFor_subscribe bus eventType t' handler
  · intro hnone
    unfold EventBus.emit
    rw [hnone]
    rfl
  · intro handler rest st e herr
    simp only [dispatchList, runHandler, herr]

/-- C7 witness: a three-handler topic where the middle handler raises;
the flags show all three were invoked, the raising one is contained, and
an unused topic dispatches nothing. -/
theorem c7_emit_best_effort_witness :
    ((((((EventBus.empty (List ℕ)).subscribe "T" (fun s => .ok (s ++ [1]))).subscribe
          "T" (fun _ => .error "boom")).subscribe "T"
          (fun s => .ok (s ++ [2]))).emit "T" []).2.length
      = (((((EventBus.empty (List ℕ)).subscribe "T" (fun s => .ok (s ++ [1]))).subscribe
          "T" (fun _ => .error "boom")).subscribe "T"
          (fun s => .ok (s ++ [2]))).handlersFor "T").length) ∧
    (dispatchList [fun _ => .error "boom", fun s => .ok (s ++ [2])] ([1] : List ℕ)
      = ((dispatchList [fun s => .ok (s ++ [2])] ([1] : List ℕ)).1,
         false :: (dispatchList [fun s => .ok (s ++ [2])] ([1] : List ℕ)).2)) ∧
    ((((EventBus.empty (List ℕ)).subscribe "T" (fun s => .ok (s ++ [1]))).emit
        "OTHER" [] ) = ([], [])) := by
  refine ⟨?_, ?_, ?_⟩
  · exact (c7_emit_best_effort ((((EventBus.empty (List ℕ)).subscribe "T"
      (fun s => .ok (s ++ [1]))).subscribe "T" (fun _ => .error "boom")).subscribe
      "T" (fun s => .ok (s ++ [2]))) "T" []).1
  · exact (c7_emit_best_effort (EventBus.empty (List ℕ)) "T" []).2.2.2
      (fun _ => .error "boom") [fun s => .ok (s ++ [2])] [1] "boom" rfl
  · exact (c7_emit_best_effort (((EventBus.empty (List ℕ)).subscribe "T"
      (fun s => .ok (s ++ [1])))) "OTHER" []).2.2.1 rfl

/-! ## TimelineController (`src/core/timeline.py`) -/

/-- A loaded timeline entry (`TimelineEvent` dataclass). The source
field `at` is called `atMinute` here because `at` is reserved in Lean. -/
structure TimelineEvent where
  atMinute : String
  emit : String
  fired : Bool
  deriving DecidableEq, Repr

/-- One scan of the entry list as both `_on_time_reached` and `update`
perform it: every entry that is unfired and whose `at` equals the
current time string is fired — `fired` is set and the entry's `emit`
topic plus the namespaced `TIMELINE:<emit>` topic are published. The log
tags each publication with the index of the entry that caused it, so
publications can be attributed. -/
def fireFrom (t : String) : ℕ → List TimelineEvent → List TimelineEvent × List (ℕ × String)
  | _, [] => ([], [])
  | i, e :: rest =>
      if e.fired = false ∧ e.atMinute = t then
        (({ e with fired := true }) :: (fireFrom t (i + 1) rest).1,
         (i, e.emit) :: (i, "TIMELINE:" ++ e.emit) :: (fireFrom t (i + 1) rest).2)
      else
        (e :: (fireFrom t (i + 1) rest).1, (fireFrom t (i + 1) rest).2)

/-- `TimelineController`: the loaded entries. -/
structure TimelineController where
  events : List TimelineEvent
  deriving DecidableEq, Repr

/-- `TimelineController.update` (pull mode): scan against the clock's
current minute string. -/
def TimelineController.update (tl : TimelineController) (clock : GameClock) :
    TimelineController × List (ℕ × String) :=
  (⟨(fireFrom clock.getTimeStr 0 tl.events).1⟩,
   (fireFrom clock.getTimeStr 0 tl.events).2)

/-- `TimelineController._on_time_reached` (push mode): a missing or
empty `time` in the payload aborts, otherwise same scan. -/
def TimelineController.onTimeReached (tl : TimelineController)
    (payload : Option String) : TimelineController × List (ℕ × String) :=
  match payload with
  | none => (tl, [])
  | some t =>
      if t = "" then (tl, [])
      else (⟨(fireFrom t 0 tl.events).1⟩, (fireFrom t 0 tl.events).2)

/-- An interleaving step: a pull-mode `update(clock)` call or a
push-mode `TIME_REACHED` delivery. -/
inductive TLOp where
  | pull (clock : GameClock)
  | push (payload : Option String)

/-- Apply one interleaving step. -/
def TimelineController.applyOp (tl : TimelineController) :
    TLOp → TimelineController × List (ℕ × String)
  | .pull clock => tl.update clock
  | .push payload => tl.onTimeReached payload

/-- Run an arbitrary interleaving of pull updates and push deliveries,
accumulating the publication log. -/
def TimelineController.run (tl : TimelineController) :
    List TLOp → TimelineController × List (ℕ × String)
  | [] => (tl, [])
  | op :: ops =>
      (((tl.applyOp op).1.run ops).1,
       (tl.applyOp op).2 ++ ((tl.applyOp op).1.run ops).2)


/-! ### Timeline lemmas -/

theorem fireFrom_indices (t : String) (es : List TimelineEvent) :
    ∀ (i : ℕ), ∀ p ∈ (fireFrom t i es).2, i ≤ p.1 := by
  induction es with
  | nil => intro i p hp; simp [fireFrom] at hp
  | cons e rest ih =>
      intro i p hp
      simp only [fireFrom] at hp
      split at hp
      · rcases List.mem_cons.1 hp with h | h
        · rw [h]
        · rcases List.mem_cons.1 h with h2 | h2
          · rw [h2]
          · have := ih (i + 1) p h2
            omega
      · have := ih (i + 1) p hp
        omega

theorem fireFrom_at (t : String) (es : List TimelineEvent) :
    ∀ (i0 j : ℕ) (e : TimelineEvent), es.get? j = some e →
    ∃ e', (fireFrom t i0 es).1.get? j = some e' ∧
      e'.atMinute = e.atMinute ∧ e'.emit = e.emit ∧
      (e.fired = true → e' = e) ∧
      ((fireFrom t i0 es).2.filter (fun p => p.1 = i0 + j)
        = if e.fired = false ∧ e'.fired = true
          then [(i0 + j, e.emit), (i0 + j, "TIMELINE:" ++ e.emit)]
          else []) := by
  induction es with
  | nil => intro i0 j e h; simp at h
  | cons hd rest ih =>
      intro i0 j e h
      cases j with
      | zero =>
          rw [List.get?_cons_zero, Option.some_inj] at h
          subst h
          have hrecnil : (fireFrom t (i0 + 1) rest).2.filter
              (fun p => p.1 = i0 + 0) = [] := by
            rw [List.filter_eq_nil_iff]
            intro p hp
            have := fireFrom_indices t rest (i0 + 1) p hp
            simp only [decide_eq_true_eq]
            omega
          by_cases hc : hd.fired = false ∧ hd.atMinute = t
          · refine ⟨{ hd with fired := true }, ?_, rfl, rfl, ?_, ?_⟩
            · simp only [fireFrom, if_pos hc, List.get?_cons_zero]
            · intro hf; rw [hf] at hc; exact absurd hc.1 (by simp)
            · simp only [fireFrom, if_pos hc]
              rw [List.filter_cons_of_pos (by simp),
                List.filter_cons_of_pos (by simp), hrecnil]
              rw [if_pos (by exact ⟨hc.1, by trivial⟩)]
              simp
          · refine ⟨hd, ?_, rfl, rfl, fun _ => rfl, ?_⟩
            · simp only [fireFrom, if_neg hc, List.get?_cons_zero]
            · simp only [fireFrom, if_neg hc]
              rw [hrecnil]
              have hne : ¬ (hd.fired = false ∧ hd.fired = true) := by
                intro hcc
                rw [hcc.1] at hcc
                exact absurd hcc.2 (by simp)
              rw [if_neg hne]
      | succ j' =>
          rw [List.get?_cons_succ] at h
          obtain ⟨e', h1, h2, h3, h4, h5⟩ := ih (i0 + 1) j' e h
          have harith : i0 + (j' + 1) = (i0 + 1) + j' := by omega
          by_cases hc : hd.fired = false ∧ hd.atMinute = t
          · refine ⟨e', ?_, h2, h3, h4, ?_⟩
            · simp only [fireFrom, if_pos hc, List.get?_cons_succ]
              exact h1
            · simp only [fireFrom, if_pos hc]
              rw [List.filter_cons_of_neg (by simp),
                List.filter_cons_of_neg (by simp)]
              rw [harith, h5]
          · refine ⟨e', ?_, h2, h3, h4, ?_⟩
            · simp only [fireFrom, if_neg hc, List.get?_cons_succ]
              exact h1
            · simp only [fireFrom, if_neg hc]
              rw [harith, h5]

theorem TimelineController.applyOp_at (tl : TimelineController) (op : TLOp)
    (j : ℕ) (e : TimelineEvent) (h : tl.events.get? j = some e) :
    ∃ e', (tl.applyOp op).1.events.get? j = some e' ∧
      e'.atMinute = e.atMinute ∧ e'.emit = e.emit ∧
      (e.fired = true → e' = e) ∧
      ((tl.applyOp op).2.filter (fun p => p.1 = j)
        = if e.fired = false ∧ e'.fired = true
          then [(j, e.emit), (j, "TIMELINE:" ++ e.emit)]
          else []) := by
  have hne : ¬ (e.fired = false ∧ e.fired = true) := by
    intro hcc
    rw [hcc.1] at hcc
    exact absurd hcc.2 (by simp)
  cases op with
  | pull clock =>
      obtain ⟨e', h1, h2, h3, h4, h5⟩ :=
        fireFrom_at clock.getTimeStr tl.events 0 j e h
      refine ⟨e', ?_, h2, h3, h4, ?_⟩
      · exact h1
      · simpa [TimelineController.applyOp, TimelineController.update] using h5
  | push payload =>
      cases payload with
      | none =>
          refine ⟨e, h, rfl, rfl, fun _ => rfl, ?_⟩
          simp only [TimelineController.applyOp, TimelineController.onTimeReached,
            List.filter_nil]
          rw [if_neg hne]
      | some s =>
          by_cases hs : s = ""
          · refine ⟨e, ?_, rfl, rfl, fun _ => rfl, ?_⟩
            · simp only [TimelineController.applyOp,
                TimelineController.onTimeReached, if_pos hs]
              exact h
            · simp only [TimelineController.applyOp,
                TimelineController.onTimeReached, if_pos hs, List.filter_nil]
              rw [if_neg hne]
          · obtain ⟨e', h1, h2, h3, h4, h5⟩ := fireFrom_at s tl.events 0 j e h
            refine ⟨e', ?_, h2, h3, h4, ?_⟩
            · simp only [TimelineController.applyOp,
                TimelineController.onTimeReached, if_neg hs]
              exact h1
            · simp only [TimelineController.applyOp,
                TimelineController.onTimeReached, if_neg hs]
              simpa using h5

theorem TimelineController.run_at (ops : List TLOp) :
    ∀ (tl : TimelineController) (j : ℕ) (e : TimelineEvent),
    tl.events.get? j = some e →
    ∃ e', ((tl.run ops).1.events.get? j = some e') ∧
      e'.atMinute = e.atMinute ∧ e'.emit = e.emit ∧
      (e.fired = true → e' = e) ∧
      ((tl.run ops).2.filter (fun p => p.1 = j)
        = if e.fired = false ∧ e'.fired = true
          then [(j, e.emit), (j, "TIMELINE:" ++ e.emit)]
          else []) := by
  induction ops with
  | nil =>
      intro tl j e h
      refine ⟨e, h, rfl, rfl, fun _ => rfl, ?_⟩
      have hne : ¬ (e.fired = false ∧ e.fired = true) := by
        intro hcc
        rw [hcc.1] at hcc
        exact absurd hcc.2 (by simp)
      simp only [TimelineController.run, List.filter_nil]
      rw [if_neg hne]
  | cons op ops ih =>
      intro tl j e h
      obtain ⟨e1, g1, g2, g3, g4, g5⟩ := TimelineController.applyOp_at tl op j e h
      obtain ⟨e2, k1, k2, k3, k4, k5⟩ := ih (tl.applyOp op).1 j e1 g1
      refine ⟨e2, k1, k2.trans g2, k3.trans g3, ?_, ?_⟩
      · intro hf
        have he1 : e1 = e := g4 hf
        have h1f : e1.fired = true := by rw [he1, hf]
        exact (k4 h1f).trans he1
      · have hsplit : (tl.run (op :: ops)).2
            = (tl.applyOp op).2 ++ ((tl.applyOp op).1.run ops).2 := rfl
        rw [hsplit, List.filter_append, g5, k5]
        by_cases hf : e.fired = true
        · have he1 : e1 = e := g4 hf
          have h1f : e1.fired = true := by rw [he1, hf]
          rw [if_neg (by rw [hf]; simp), if_neg (by rw [h1f]; simp),
            if_neg (by rw [hf]; simp)]
          rfl
        · have hf' : e.fired = false := by revert hf; cases e.fired <;> simp
          by_cases h1f : e1.fired = true
          · have he2 : e2 = e1 := k4 h1f
            have h2f : e2.fired = true := by rw [he2, h1f]
            rw [if_pos ⟨hf', h1f⟩, if_neg (by rw [h1f]; simp), if_pos ⟨hf', h2f⟩]
            simp
          · have h1f' : e1.fired = false := by revert h1f; cases e1.fired <;> simp
            by_cases h2f : e2.fired = true
            · rw [if_neg (fun hcc => h1f hcc.2), if_pos ⟨h1f', h2f⟩,
                if_pos ⟨hf', h2f⟩, g3]
              simp
            · rw [if_neg (fun hcc => h1f hcc.2), if_neg (fun hcc => h2f hcc.2),
                if_neg (fun hcc => h2f hcc.2)]
              rfl

/-- C6: for every loaded timeline entry that is not yet fired, under any
interleaving of pull-mode `update(clock)` calls and push-mode
`TIME_REACHED` deliveries (including both for the same minute), the
publications attributed to that entry are either none at all, or exactly
one publication of its `emit` topic followed by one publication of its
namespaced `TIMELINE:<emit>` topic: the first matching path sets `fired`
and every later matching check skips the entry. -/
theorem c6_timeline_fires_once (tl : TimelineController) (ops : List TLOp)
    (j : ℕ) (e : TimelineEvent)
    (hj : tl.events.get? j = some e) (hf : e.fired = false) :
    ((tl.run ops).2.filter (fun p => p.1 = j) = [] ∨
     (tl.run ops).2.filter (fun p => p.1 = j)
       = [(j, e.emit), (j, "TIMELINE:" ++ e.emit)]) := by
  obtain ⟨e', _, _, _, _, h5⟩ := TimelineController.run_at ops tl j e hj
  by_cases hcc : (e.fired = false ∧ e'.fired = true)
  · right
    rw [h5, if_pos hcc]
  · left
    rw [h5, if_neg hcc]

/-- C6 witness: one entry at 08:31; a push delivery, a pull update at
08:31 and a second push delivery together publish the entry's topics at
most once in total. -/
theorem c6_timeline_fires_once_witness :
    ((TimelineController.run ⟨[⟨"08:31", "boss_call", false⟩]⟩
       [TLOp.push (some "08:31"),
        TLOp.pull ⟨60, 30600, 31680, 30660, true, 1, none⟩,
        TLOp.push (some "08:31")]).2.filter (fun p => p.1 = 0) = [] ∨
     (TimelineController.run ⟨[⟨"08:31", "boss_call", false⟩]⟩
       [TLOp.push (some "08:31"),
        TLOp.pull ⟨60, 30600, 31680, 30660, true, 1, none⟩,
        TLOp.push (some "08:31")]).2.filter (fun p => p.1 = 0)
       = [(0, "boss_call"), (0, "TIMELINE:boss_call")]) :=
  c6_timeline_fires_once ⟨[⟨"08:31", "boss_call", false⟩]⟩
    [TLOp.push (some "08:31"),
     TLOp.pull ⟨60, 30600, 31680, 30660, true, 1, none⟩,
     TLOp.push (some "08:31")] 0 ⟨"08:31", "boss_call", false⟩ rfl rfl

/-! ## TaskManager (`src/world/tasks.py`) -/

/-- Insertion-ordered dictionary (Python `dict`): re-inserting an
existing key replaces the value in place, a new key is appended. -/
def dictInsert {α : Type} (l : List (String × α)) (k : String) (v : α) :
    List (String × α) :=
  if l.any (fun p => p.1 = k) then
    l.map (fun p => if p.1 = k then (k, v) else p)
  else l ++ [(k, v)]

/-- Dictionary lookup (`dict.get`). -/
def dictGet {α : Type} (l : List (String × α)) (k : String) : Option α :=
  (l.find? (fun p => p.1 = k)).map Prod.snd

/-- Dictionary membership (`k in dict`). -/
def dictMem {α : Type} (l : List (String × α)) (k : String) : Bool :=
  l.any (fun p => p.1 = k)

/-- Python `set.add`, on a set modelled as a duplicate-free list (only
membership is ever observed). -/
def setAdd (s : List String) (x : String) : List String :=
  if x ∈ s then s else s ++ [x]

/-- Python `set.discard`. -/
def setDiscard (s : List String) (x : String) : List String :=
  s.filter (fun y => y ≠ x)

/-- `TaskStatus` enum. -/
inductive TaskStatus where
  | locked
  | available
  | inProgress
  | completed
  deriving DecidableEq, Repr

/-- `TaskType` enum. -/
inductive TaskType where
  | interaction
  | dialogue
  | exploration
  | collection
  deriving DecidableEq, Repr

/-- The source's `Task` dataclass (definition fields only; status lives
in the manager); named `GameTask` because `Task` is taken by the Lean
core. -/
structure GameTask where
  id : String
  title : String := ""
  description : String := ""
  taskType : TaskType := .interaction
  floor : Option ℤ := none
  interactableId : Option String := none
  npcId : Option String := none
  rewardPoints : ℤ := 0
  required : Bool := false
  dependencies : List String := []
  completionMessage : String := ""
  allowUnassignedCompletion : Bool := true
  dueBy : Option String := none
  softDue : Option String := none
  priority : ℤ := 0
  tags : List String := []
  deriving DecidableEq, Repr

/-- `TaskManager` state. -/
structure TaskManager where
  tasks : List (String × GameTask) := []
  taskStatus : List (String × TaskStatus) := []
  completedTasks : List String := []
  availableTasks : List String := []
  discoveredTasks : List String := []
  offeredTasks : List String := []
  silentCompletions : List String := []
  totalPoints : ℤ := 0
  mainTasksCompleted : ℕ := 0
  sideTasksCompleted : ℕ := 0
  deriving DecidableEq, Repr

namespace TaskManager

/-- `TaskManager._are_dependencies_met`. -/
def areDependenciesMet (m : TaskManager) (t : GameTask) : Bool :=
  t.dependencies.all (fun d => d ∈ m.completedTasks)

/-- `TaskManager.add_task`: register the task and compute its initial
status — available when the dependencies are met and the task is
required, already offered, or tagged `auto`. -/
def addTask (m : TaskManager) (t : GameTask) : TaskManager :=
  let m1 := { m with tasks := dictInsert m.tasks t.id t }
  if m1.areDependenciesMet t then
    if t.required || m1.offeredTasks.contains t.id || t.tags.contains "auto" then
      { m1 with taskStatus := dictInsert m1.taskStatus t.id .available,
                availableTasks := setAdd m1.availableTasks t.id }
    else
      { m1 with taskStatus := dictInsert m1.taskStatus t.id .locked }
  else
    { m1 with taskStatus := dictInsert m1.taskStatus t.id .locked }

/-- The loop body of `TaskManager._update_available_tasks` for one
(task_id, task) item: note the condition checks only `required` or
membership in `offered_tasks` — the `auto` tag is not consulted here. -/
def updateAvailStep (m : TaskManager) (tid : String) (t : GameTask) : TaskManager :=
  if (m.areDependenciesMet t &&
      (t.required || m.offeredTasks.contains tid)) &&
     ((dictGet m.taskStatus tid).getD .locked == .locked) then
    { m with taskStatus := dictInsert m.taskStatus tid .available,
             availableTasks := setAdd m.availableTasks tid }
  else if (!(m.areDependenciesMet t &&
             (t.required || m.offeredTasks.contains tid))) &&
          ((dictGet m.taskStatus tid).getD .locked == .available) then
    { m with availableTasks := setDiscard m.availableTasks tid,
             taskStatus := dictInsert m.taskStatus tid .locked }
  else m

/-- `TaskManager._update_available_tasks`: full re-scan over the task
dictionary in insertion order. -/
def updateAvailableTasks (m : TaskManager) : TaskManager :=
  m.tasks.foldl (fun acc kv => updateAvailStep acc kv.1 kv.2) m

/-- `TaskManager.complete_task`. -/
def completeTask (m : TaskManager) (taskId : String) : TaskManager × Bool :=
  if ¬ dictMem m.tasks taskId then (m, false)
  else if taskId ∈ m.completedTasks then (m, false)
  else
    match dictGet m.tasks taskId with
    | none => (m, false)
    | some t =>
        (updateAvailableTasks
          { m with completedTasks := setAdd m.completedTasks taskId,
                   taskStatus := dictInsert m.taskStatus taskId .completed,
                   availableTasks := setDiscard m.availableTasks taskId,
                   totalPoints := m.totalPoints + t.rewardPoints,
                   mainTasksCompleted :=
                     m.mainTasksCompleted + (if t.required then 1 else 0),
                   sideTasksCompleted :=
                     m.sideTasksCompleted + (if t.required then 0 else 1) },
         true)

/-- The Python truthiness test
`task.interactable_id and task.interactable_id == target`. -/
def matchesInteractable (t : GameTask) (target : String) : Bool :=
  match t.interactableId with
  | some s => s ≠ "" && s == target
  | none => false

/-- The scan loop of `TaskManager.complete_task_unassigned_if_match`:
the first task (in dictionary order) whose `interactable_id` matches
decides the outcome — already completed or disallowing unassigned
completion aborts the scan with no state change; otherwise the task is
silently completed. -/
def unassignedScan (m : TaskManager) (target : String) :
    List (String × GameTask) → TaskManager × Option String
  | [] => (m, none)
  | (_, t) :: rest =>
      if matchesInteractable t target then
        if t.id ∈ m.completedTasks then (m, none)
        else if !t.allowUnassignedCompletion then (m, none)
        else
          (updateAvailableTasks
            { m with completedTasks := setAdd m.completedTasks t.id,
                     taskStatus := dictInsert m.taskStatus t.id .completed,
                     availableTasks := setDiscard m.availableTasks t.id,
                     silentCompletions := setAdd m.silentCompletions t.id,
                     totalPoints := m.totalPoints + t.rewardPoints,
                     mainTasksCompleted :=
                       m.mainTasksCompleted + (if t.required then 1 else 0),
                     sideTasksCompleted :=
                       m.sideTasksCompleted + (if t.required then 0 else 1) },
           none)
      else unassignedScan m target rest

/-- `TaskManager.complete_task_unassigned_if_match`. -/
def completeTaskUnassignedIfMatch (m : TaskManager) (target : String) :
    TaskManager × Option String :=
  unassignedScan m target m.tasks

/-- `TaskManager.offer_task` (the later definition in the file, which
shadows the earlier one and returns a Bool). -/
def offerTask (m : TaskManager) (taskId : String) : TaskManager × Bool :=
  if ¬ dictMem m.tasks taskId then (m, false)
  else
    (updateAvailableTasks
      { m with offeredTasks := setAdd m.offeredTasks taskId }, true)

/-- `TaskManager.discover_task`. -/
def discoverTask (m : TaskManager) (taskId : String) : TaskManager × Bool :=
  if ¬ dictMem m.tasks taskId then (m, false)
  else if taskId ∈ m.discoveredTasks then (m, false)
  else ({ m with discoveredTasks := setAdd m.discoveredTasks taskId }, true)

/-- `TaskManager.get_task_status`. -/
def getTaskStatus (m : TaskManager) (taskId : String) : Option TaskStatus :=
  dictGet m.taskStatus taskId

/-- `TaskManager.is_task_completed`. -/
def isTaskCompleted (m : TaskManager) (taskId : String) : Bool :=
  taskId ∈ m.completedTasks

end TaskManager

/-- The TaskManager operations other than `reset` that the session can
invoke after a completion (re-evaluation is included as its own step
since `complete`, `offer` and the unassigned completion all end by
running it). -/
inductive TMOp where
  | complete (taskId : String)
  | offer (taskId : String)
  | discover (taskId : String)
  | unassigned (target : String)
  | reeval

/-- Apply one operation, discarding the returned value. -/
def TaskManager.applyOp (m : TaskManager) : TMOp → TaskManager
  | .complete taskId => (m.completeTask taskId).1
  | .offer taskId => (m.offerTask taskId).1
  | .discover taskId => (m.discoverTask taskId).1
  | .unassigned target => (m.completeTaskUnassignedIfMatch target).1
  | .reeval => m.updateAvailableTasks

/-! ### Dictionary and set lemmas -/

theorem find?_map_replace {α : Type} (k k' : String) (v : α)
    (h : k' ≠ k) (l : List (String × α)) :
    (l.map (fun p => if p.1 = k then (k, v) else p)).find?
        (fun p => p.1 = k')
      = l.find? (fun p => p.1 = k') := by
  induction l with
  | nil => rfl
  | cons hd tl ih =>
      by_cases hk : hd.1 = k
      · rw [List.map_cons, if_pos hk]
        rw [List.find?_cons_of_neg _ (by simp; exact fun hh => h hh.symm),
          List.find?_cons_of_neg _ (by simp [hk]; exact fun hh => h hh.symm)]
        exact ih
      · rw [List.map_cons, if_neg hk]
        by_cases hk' : hd.1 = k'
        · rw [List.find?_cons_of_pos _ (by simp [hk']),
            List.find?_cons_of_pos _ (by simp [hk'])]
        · rw [List.find?_cons_of_neg _ (by simp [hk']),
            List.find?_cons_of_neg _ (by simp [hk'])]
          exact ih

theorem dictGet_dictInsert_self {α : Type} (l : List (String × α))
    (k : String) (v : α) : dictGet (dictInsert l k v) k = some v := by
  unfold dictInsert dictGet
  by_cases hmem : l.any (fun p => p.1 = k)
  · rw [if_pos hmem]
    induction l with
    | nil => simp at hmem
    | cons hd tl ih =>
        by_cases hk : hd.1 = k
        · rw [List.map_cons, if_pos hk, List.find?_cons_of_pos _ (by simp)]
          rfl
        · rw [List.map_cons, if_neg hk,
            List.find?_cons_of_neg _ (by simp [hk])]
          apply ih
          simpa [hk] using hmem
  · rw [if_neg hmem]
    induction l with
    | nil => simp
    | cons hd tl ih =>
        have hk : ¬ hd.1 = k := by
          intro hh
          exact hmem (by simp [hh])
        rw [List.cons_append, List.find?_cons_of_neg _ (by simp [hk])]
        apply ih
        intro hh
        exact hmem (by simp at hh ⊢; exact Or.inr hh)

theorem dictGet_dictInsert_ne {α : Type} (l : List (String × α))
    (k k' : String) (v : α) (h : k' ≠ k) :
    dictGet (dictInsert l k v) k' = dictGet l k' := by
  unfold dictInsert dictGet
  by_cases hmem : l.any (fun p => p.1 = k)
  · rw [if_pos hmem, find?_map_replace k k' v h l]
  · rw [if_neg hmem]
    induction l with
    | nil => simp [List.find?, Ne.symm h]
    | cons hd tl ih =>
        by_cases hk' : hd.1 = k'
        · rw [List.cons_append, List.find?_cons_of_pos _ (by simp [hk']),
            List.find?_cons_of_pos _ (by simp [hk'])]
        · rw [List.cons_append, List.find?_cons_of_neg _ (by simp [hk']),
            List.find?_cons_of_neg _ (by simp [hk'])]
          apply ih
          intro hh
          exact hmem (by simp at hh ⊢; exact Or.inr hh)

theorem mem_setAdd_of_mem {s : List String} {x y : String} (h : x ∈ s) :
    x ∈ setAdd s y := by
  unfold setAdd
  split
  · exact h
  · exact List.mem_append_left _ h

theorem mem_setAdd_self (s : List String) (x : String) : x ∈ setAdd s x := by
  unfold setAdd
  split
  next h => exact h
  next => exact List.mem_append_right _ (List.mem_singleton.2 rfl)

/-! ### TaskManager lemmas -/

theorem TaskManager.updateAvailStep_frame (m : TaskManager) (tid : String)
    (t : GameTask) :
    (m.updateAvailStep tid t).completedTasks = m.completedTasks ∧
    (m.updateAvailStep tid t).tasks = m.tasks ∧
    (m.updateAvailStep tid t).silentCompletions = m.silentCompletions ∧
    (m.updateAvailStep tid t).totalPoints = m.totalPoints ∧
    (m.updateAvailStep tid t).mainTasksCompleted = m.mainTasksCompleted ∧
    (m.updateAvailStep tid t).sideTasksCompleted = m.sideTasksCompleted ∧
    (m.updateAvailStep tid t).offeredTasks = m.offeredTasks ∧
    (m.updateAvailStep tid t).discoveredTasks = m.discoveredTasks := by
  unfold updateAvailStep
  split
  · exact ⟨rfl, rfl, rfl, rfl, rfl, rfl, rfl, rfl⟩
  · split
    · exact ⟨rfl, rfl, rfl, rfl, rfl, rfl, rfl, rfl⟩
    · exact ⟨rfl, rfl, rfl, rfl, rfl, rfl, rfl, rfl⟩

theorem TaskManager.updateAvailStep_status_completed (m : TaskManager)
    (tid : String) (t : GameTask) (tid0 : String)
    (h : dictGet m.taskStatus tid0 = some .completed) :
    dictGet (m.updateAvailStep tid t).taskStatus tid0 = some .completed := by
  by_cases he : tid0 = tid
  · subst he
    unfold updateAvailStep
    rw [if_neg (by simp [h]), if_neg (by simp [h])]
    exact h
  · unfold updateAvailStep
    split
    · show dictGet (dictInsert m.taskStatus tid .available) tid0 = _
      rw [dictGet_dictInsert_ne _ _ _ _ he]
      exact h
    · split
      · show dictGet (dictInsert m.taskStatus tid .locked) tid0 = _
        rw [dictGet_dictInsert_ne _ _ _ _ he]
        exact h
      · exact h

theorem TaskManager.foldlUpdate_frame (l : List (String × GameTask)) :
    ∀ (m : TaskManager),
    ((l.foldl (fun acc kv => acc.updateAvailStep kv.1 kv.2) m)).completedTasks
      = m.completedTasks ∧
    ((l.foldl (fun acc kv => acc.updateAvailStep kv.1 kv.2) m)).tasks = m.tasks ∧
    ((l.foldl (fun acc kv => acc.updateAvailStep kv.1 kv.2) m)).silentCompletions
      = m.silentCompletions ∧
    ((l.foldl (fun acc kv => acc.updateAvailStep kv.1 kv.2) m)).totalPoints
      = m.totalPoints ∧
    ((l.foldl (fun acc kv => acc.updateAvailStep kv.1 kv.2) m)).mainTasksCompleted
      = m.mainTasksCompleted ∧
    ((l.foldl (fun acc kv => acc.updateAvailStep kv.1 kv.2) m)).sideTasksCompleted
      = m.sideTasksCompleted ∧
    ((l.foldl (fun acc kv => acc.updateAvailStep kv.1 kv.2) m)).offeredTasks
      = m.offeredTasks ∧
    ((l.foldl (fun acc kv => acc.updateAvailStep kv.1 kv.2) m)).discoveredTasks
      = m.discoveredTasks := by
  induction l with
  | nil => exact fun m => ⟨rfl, rfl, rfl, rfl, rfl, rfl, rfl, rfl⟩
  | cons kv rest ih =>
      intro m
      obtain ⟨s1, s2, s3, s4, s5, s6, s7, s8⟩ :=
        TaskManager.updateAvailStep_frame m kv.1 kv.2
      obtain ⟨f1, f2, f3, f4, f5, f6, f7, f8⟩ := ih (m.updateAvailStep kv.1 kv.2)
      exact ⟨f1.trans s1, f2.trans s2, f3.trans s3, f4.trans s4,
        f5.trans s5, f6.trans s6, f7.trans s7, f8.trans s8⟩

theorem TaskManager.foldlUpdate_status_completed (l : List (String × GameTask)) :
    ∀ (m : TaskManager) (tid0 : String),
    dictGet m.taskStatus tid0 = some .completed →
    dictGet ((l.foldl (fun acc kv => acc.updateAvailStep kv.1 kv.2) m)).taskStatus
        tid0 = some .completed := by
  induction l with
  | nil => exact fun m tid0 h => h
  | cons kv rest ih =>
      intro m tid0 h
      exact ih (m.updateAvailStep kv.1 kv.2) tid0
        (TaskManager.updateAvailStep_status_completed m kv.1 kv.2 tid0 h)

theorem TaskManager.updateAvailableTasks_completedTasks (m : TaskManager) :
    m.updateAvailableTasks.completedTasks = m.completedTasks :=
  (TaskManager.foldlUpdate_frame m.tasks m).1

theorem TaskManager.updateAvailableTasks_silentCompletions (m : TaskManager) :
    m.updateAvailableTasks.silentCompletions = m.silentCompletions :=
  (TaskManager.foldlUpdate_frame m.tasks m).2.2.1

theorem TaskManager.updateAvailableTasks_status_completed (m : TaskManager)
    (tid0 : String) (h : dictGet m.taskStatus tid0 = some .completed) :
    dictGet m.updateAvailableTasks.taskStatus tid0 = some .completed :=
  TaskManager.foldlUpdate_status_completed m.tasks m tid0 h

theorem TaskManager.completeTask_noop (m : TaskManager) (taskId : String)
    (h : dictMem m.tasks taskId = false ∨ taskId ∈ m.completedTasks) :
    m.completeTask taskId = (m, false) := by
  unfold completeTask
  rcases h with h | h
  · rw [if_pos (by simp [h])]
  · by_cases hm : dictMem m.tasks taskId = true
    · rw [if_neg (by simp [hm]), if_pos h]
    · rw [if_pos (by simpa using hm)]

theorem TaskManager.completeTask_preserves (m : TaskManager)
    (tid' taskId : String) :
    (taskId ∈ m.completedTasks →
      taskId ∈ (m.completeTask tid').1.completedTasks) ∧
    (dictGet m.taskStatus taskId = some .completed →
      dictGet (m.completeTask tid').1.taskStatus taskId = some .completed) := by
  unfold completeTask
  split
  · exact ⟨fun h => h, fun h => h⟩
  · split
    · exact ⟨fun h => h, fun h => h⟩
    · split
      · exact ⟨fun h => h, fun h => h⟩
      · constructor
        · intro h
          rw [TaskManager.updateAvailableTasks_completedTasks]
          exact mem_setAdd_of_mem h
        · intro h
          apply TaskManager.updateAvailableTasks_status_completed
          show dictGet (dictInsert m.taskStatus tid' .completed) taskId = _
          by_cases he : taskId = tid'
          · subst he
            rw [dictGet_dictInsert_self]
          · rw [dictGet_dictInsert_ne _ _ _ _ he]
            exact h

theorem TaskManager.unassignedScan_preserves (target taskId : String) :
    ∀ (l : List (String × GameTask)) (m : TaskManager),
    (taskId ∈ m.completedTasks →
      taskId ∈ (TaskManager.unassignedScan m target l).1.completedTasks) ∧
    (dictGet m.taskStatus taskId = some .completed →
      dictGet (TaskManager.unassignedScan m target l).1.taskStatus taskId
        = some .completed) := by
  intro l
  induction l with
  | nil => exact fun m => ⟨fun h => h, fun h => h⟩
  | cons hd rest ih =>
      intro m
      unfold unassignedScan
      split
      · split
        · exact ⟨fun h => h, fun h => h⟩
        · split
          · exact ⟨fun h => h, fun h => h⟩
          · constructor
            · intro h
              rw [TaskManager.updateAvailableTasks_completedTasks]
              exact mem_setAdd_of_mem h
            · intro h
              apply TaskManager.updateAvailableTasks_status_completed
              show dictGet (dictInsert m.taskStatus hd.2.id .completed) taskId = _
              by_cases he : taskId = hd.2.id
              · subst he
                rw [dictGet_dictInsert_self]
              · rw [dictGet_dictInsert_ne _ _ _ _ he]
                exact h
      · exact ih m

theorem TaskManager.applyOp_preserves (m : TaskManager) (taskId : String)
    (op : TMOp) :
    (taskId ∈ m.completedTasks → taskId ∈ (m.applyOp op).completedTasks) ∧
    (dictGet m.taskStatus taskId = some .completed →
      dictGet (m.applyOp op).taskStatus taskId = some .completed) := by
  cases op with
  | complete tid2 => exact TaskManager.completeTask_preserves m tid2 taskId
  | offer tid2 =>
      show (taskId ∈ m.completedTasks →
          taskId ∈ (m.offerTask tid2).1.completedTasks) ∧
        (dictGet m.taskStatus taskId = some .completed →
          dictGet (m.offerTask tid2).1.taskStatus taskId = some .completed)
      unfold offerTask
      split
      · exact ⟨fun h => h, fun h => h⟩
      · constructor
        · intro h
          show taskId ∈ (TaskManager.updateAvailableTasks _).completedTasks
          rw [TaskManager.updateAvailableTasks_completedTasks]
          exact h
        · intro h
          exact TaskManager.updateAvailableTasks_status_completed _ taskId h
  | discover tid2 =>
      show (taskId ∈ m.completedTasks →
          taskId ∈ (m.discoverTask tid2).1.completedTasks) ∧
        (dictGet m.taskStatus taskId = some .completed →
          dictGet (m.discoverTask tid2).1.taskStatus taskId = some .completed)
      unfold discoverTask
      split
      · exact ⟨fun h => h, fun h => h⟩
      · split
        · exact ⟨fun h => h, fun h => h⟩
        · exact ⟨fun h => h, fun h => h⟩
  | unassigned target2 =>
      exact TaskManager.unassignedScan_preserves target2 taskId m.tasks m
  | reeval =>
      exact ⟨fun h => (TaskManager.updateAvailableTasks_completedTasks m) ▸ h,
        fun h => TaskManager.updateAvailableTasks_status_completed m taskId h⟩

/-- C5: `complete(id)` returns false and leaves the manager unchanged
when the id is unknown or already completed; a completed task stays
completed (both in the completed set and in status) under `complete`,
`offer`, `discover`, unassigned completion and re-evaluation; and a
repeated `complete(id)` after any such operation still returns false. -/
theorem c5_completed_terminal (m : TaskManager) (taskId : String) (op : TMOp) :
    ((dictMem m.tasks taskId = false ∨ taskId ∈ m.completedTasks) →
      m.completeTask taskId = (m, false)) ∧
    (taskId ∈ m.completedTasks → taskId ∈ (m.applyOp op).completedTasks) ∧
    (m.getTaskStatus taskId = some .completed →
      (m.applyOp op).getTaskStatus taskId = some .completed) ∧
    (taskId ∈ m.completedTasks →
      ((m.applyOp op).completeTask taskId).2 = false) := by
  obtain ⟨p1, p2⟩ := TaskManager.applyOp_preserves m taskId op
  refine ⟨TaskManager.completeTask_noop m taskId, p1, p2, ?_⟩
  intro h
  rw [TaskManager.completeTask_noop (m.applyOp op) taskId (Or.inr (p1 h))]

/-- The concrete manager used in the C5 witness: one required task
completed explicitly. -/
def c5mgr : TaskManager :=
  ((TaskManager.addTask {} { id := "M1", required := true }).completeTask "M1").1

/-- C5 witness: on the concrete completed manager, the terminal-status
theorem yields the no-op, the preservation under `offer`, and the
repeated-completion failure. -/
theorem c5_completed_terminal_witness :
    c5mgr.completeTask "M1" = (c5mgr, false) ∧
    "M1" ∈ (c5mgr.applyOp (TMOp.offer "M1")).completedTasks ∧
    (c5mgr.applyOp (TMOp.offer "M1")).getTaskStatus "M1" = some .completed ∧
    ((c5mgr.applyOp (TMOp.offer "M1")).completeTask "M1").2 = false := by
  have h := c5_completed_terminal c5mgr "M1" (TMOp.offer "M1")
  exact ⟨h.1 (Or.inr (by decide)), h.2.1 (by decide),
    h.2.2.1 (by decide), h.2.2.2 (by decide)⟩

/-- C1 (code bug in `_update_available_tasks`): `add_task` promotes a
non-required, non-offered task tagged `auto` with satisfied dependencies
to Available, but the re-evaluation — which runs at load time right
after the adds and again after every completion or offer — checks only
`required or offered`, never the `auto` tag, and so demotes that very
task back to Locked even though its eligibility (dependencies met, auto
tag) still holds. -/
theorem c1_auto_tag_dropped_by_reeval :
    ((TaskManager.addTask {} { id := "auto_side", tags := ["auto"] }).getTaskStatus
        "auto_side" = some .available) ∧
    (GameTask.required { id := "auto_side", tags := ["auto"] } = false) ∧
    (("auto_side" : String) ∉
      (TaskManager.addTask {} { id := "auto_side", tags := ["auto"] }).offeredTasks) ∧
    (GameTask.tags { id := "auto_side", tags := ["auto"] }).contains "auto" = true ∧
    (TaskManager.areDependenciesMet
      (TaskManager.addTask {} { id := "auto_side", tags := ["auto"] })
      { id := "auto_side", tags := ["auto"] } = true) ∧
    ((TaskManager.addTask {} { id := "auto_side", tags := ["auto"]
      }).updateAvailableTasks.getTaskStatus "auto_side" = some .locked) := by
  decide

/-- The first registered task whose `interactable_id` matches the
target, in dictionary order — the task
`complete_task_unassigned_if_match`'s scan stops at. -/
def TaskManager.firstMatch (m : TaskManager) (target : String) :
    Option GameTask :=
  (m.tasks.map Prod.snd).find? (fun t => matchesInteractable t target)

theorem TaskManager.unassignedScan_spec (m : TaskManager) (target : String) :
    ∀ (l : List (String × GameTask)),
    (((l.map Prod.snd).find? (fun t => matchesInteractable t target)) = none →
      TaskManager.unassignedScan m target l = (m, none)) ∧
    (∀ t, ((l.map Prod.snd).find? (fun t => matchesInteractable t target))
        = some t →
      ((t.id ∈ m.completedTasks ∨ t.allowUnassignedCompletion = false) →
        TaskManager.unassignedScan m target l = (m, none)) ∧
      (t.id ∉ m.completedTasks → t.allowUnassignedCompletion = true →
        TaskManager.unassignedScan m target l
          = (TaskManager.updateAvailableTasks
              { m with completedTasks := setAdd m.completedTasks t.id,
                       taskStatus := dictInsert m.taskStatus t.id .completed,
                       availableTasks := setDiscard m.availableTasks t.id,
                       silentCompletions := setAdd m.silentCompletions t.id,
                       totalPoints := m.totalPoints + t.rewardPoints,
                       mainTasksCompleted :=
                         m.mainTasksCompleted + (if t.required then 1 else 0),
                       sideTasksCompleted :=
                         m.sideTasksCompleted + (if t.required then 0 else 1) },
             none))) := by
  intro l
  induction l with
  | nil =>
      constructor
      · intro _
        rfl
      · intro t ht
        simp at ht
  | cons hd rest ih =>
      by_cases hm : matchesInteractable hd.2 target = true
      · constructor
        · intro hnone
          rw [List.map_cons, List.find?_cons_of_pos _ (by simpa using hm)] at hnone
          exact absurd hnone (by simp)
        · intro t ht
          rw [List.map_cons, List.find?_cons_of_pos _ (by simpa using hm),
            Option.some_inj] at ht
          subst ht
          constructor
          · intro hstop
            unfold TaskManager.unassignedScan
            rw [if_pos hm]
            by_cases hmem : hd.2.id ∈ m.completedTasks
            · rw [if_pos hmem]
            · rcases hstop with hstop | hstop
              · exact absurd hstop hmem
              · rw [if_neg hmem, if_pos (by simp [hstop])]
          · intro hnc hallow
            unfold TaskManager.unassignedScan
            rw [if_pos hm, if_neg hnc, if_neg (by simp [hallow])]
      · constructor
        · intro hnone
          rw [List.map_cons, List.find?_cons_of_neg _ (by simpa using hm)] at hnone
          unfold TaskManager.unassignedScan
          rw [if_neg hm]
          exact (ih).1 hnone
        · intro t ht
          rw [List.map_cons, List.find?_cons_of_neg _ (by simpa using hm)] at ht
          have hrest := (ih).2 t ht
          constructor
          · intro hstop
            unfold TaskManager.unassignedScan
            rw [if_neg hm]
            exact hrest.1 hstop
          · intro hnc hallow
            unfold TaskManager.unassignedScan
            rw [if_neg hm]
            exact hrest.2 hnc hallow

/-- C3 (amended): `complete_task_unassigned_if_match` acts on the
*first* registered task (in dictionary order) whose `interactable_id`
matches. When no task matches, it returns `None` and changes nothing.
When the first match is already completed or disallows unassigned
completion, it returns `None` and changes nothing — even if a later task
also matches and is eligible. When the first match is eligible, that
task is silently completed: status `Completed`, reward points added, the
main/side counter incremented, the id recorded in the silent-completions
set, dependents re-evaluated, and `None` returned. The call never
raises. -/
theorem c3_unassigned_first_match (m : TaskManager) (target : String) :
    (m.firstMatch target = none →
      m.completeTaskUnassignedIfMatch target = (m, none)) ∧
    (∀ t, m.firstMatch target = some t →
      (t.id ∈ m.completedTasks ∨ t.allowUnassignedCompletion = false) →
      m.completeTaskUnassignedIfMatch target = (m, none)) ∧
    (∀ t, m.firstMatch target = some t → t.id ∉ m.completedTasks →
      t.allowUnassignedCompletion = true →
      (m.completeTaskUnassignedIfMatch target).2 = none ∧
      (m.completeTaskUnassignedIfMatch target).1
        = TaskManager.updateAvailableTasks
            { m with completedTasks := setAdd m.completedTasks t.id,
                     taskStatus := dictInsert m.taskStatus t.id .completed,
                     availableTasks := setDiscard m.availableTasks t.id,
                     silentCompletions := setAdd m.silentCompletions t.id,
                     totalPoints := m.totalPoints + t.rewardPoints,
                     mainTasksCompleted :=
                       m.mainTasksCompleted + (if t.required then 1 else 0),
                     sideTasksCompleted :=
                       m.sideTasksCompleted + (if t.required then 0 else 1) } ∧
      t.id ∈ (m.completeTaskUnassignedIfMatch target).1.completedTasks ∧
      (m.completeTaskUnassignedIfMatch target).1.getTaskStatus t.id
        = some .completed ∧
      t.id ∈ (m.completeTaskUnassignedIfMatch target).1.silentCompletions) := by
  obtain ⟨hn, hs⟩ := TaskManager.unassignedScan_spec m target m.tasks
  refine ⟨hn, fun t ht => (hs t ht).1, fun t ht hnc hallow => ?_⟩
  have heq := (hs t ht).2 hnc hallow
  have h1 : (m.completeTaskUnassignedIfMatch target)
      = (TaskManager.updateAvailableTasks
          { m with completedTasks := setAdd m.completedTasks t.id,
                   taskStatus := dictInsert m.taskStatus t.id .completed,
                   availableTasks := setDiscard m.availableTasks t.id,
                   silentCompletions := setAdd m.silentCompletions t.id,
                   totalPoints := m.totalPoints + t.rewardPoints,
                   mainTasksCompleted :=
                     m.mainTasksCompleted + (if t.required then 1 else 0),
                   sideTasksCompleted :=
                     m.sideTasksCompleted + (if t.required then 0 else 1) },
         none) := heq
  refine ⟨by rw [h1], by rw [h1], ?_, ?_, ?_⟩
  · rw [h1]
    show t.id ∈ (TaskManager.updateAvailableTasks _).completedTasks
    rw [TaskManager.updateAvailableTasks_completedTasks]
    exact mem_setAdd_self _ _
  · rw [h1]
    exact TaskManager.updateAvailableTasks_status_completed _ _
      (dictGet_dictInsert_self _ _ _)
  · rw [h1]
    show t.id ∈ (TaskManager.updateAvailableTasks _).silentCompletions
    rw [TaskManager.updateAvailableTasks_silentCompletions]
    exact mem_setAdd_self _ _

/-- C3 counterexample: two registered tasks share the interactable
`printer_97`; the first one is already completed, the second is
uncompleted and allows unassigned completion. The claim says the call
completes such an eligible task — but the scan stops at the first match
and returns with no state change, leaving the eligible task
uncompleted. -/
theorem c3_blocked_by_first_match :
    (dictGet
      (((TaskManager.addTask
          (TaskManager.addTask {} { id := "pA", interactableId := some "printer_97" })
          { id := "pB", interactableId := some "printer_97" }).completeTask
            "pA").1).tasks "pB"
      = some { id := "pB", interactableId := some "printer_97" }) ∧
    (TaskManager.matchesInteractable
      { id := "pB", interactableId := some "printer_97" } "printer_97" = true) ∧
    (("pB" : String) ∉
      (((TaskManager.addTask
          (TaskManager.addTask {} { id := "pA", interactableId := some "printer_97" })
          { id := "pB", interactableId := some "printer_97" }).completeTask
            "pA").1).completedTasks) ∧
    (GameTask.allowUnassignedCompletion
      { id := "pB", interactableId := some "printer_97" } = true) ∧
    ((((TaskManager.addTask
          (TaskManager.addTask {} { id := "pA", interactableId := some "printer_97" })
          { id := "pB", interactableId := some "printer_97" }).completeTask
            "pA").1).completeTaskUnassignedIfMatch "printer_97"
      = ((((TaskManager.addTask
          (TaskManager.addTask {} { id := "pA", interactableId := some "printer_97" })
          { id := "pB", interactableId := some "printer_97" }).completeTask
            "pA").1), none)) := by
  decide

/-- C3 witness: a single eligible matching task is silently completed
and the call returns no visible id. -/
theorem c3_unassigned_first_match_witness :
    (((TaskManager.addTask {}
        { id := "pC", interactableId := some "printer_97" }).completeTaskUnassignedIfMatch
          "printer_97").2 = none) ∧
    (("pC" : String) ∈
      ((TaskManager.addTask {}
        { id := "pC", interactableId := some "printer_97" }).completeTaskUnassignedIfMatch
          "printer_97").1.completedTasks) ∧
    (((TaskManager.addTask {}
        { id := "pC", interactableId := some "printer_97" }).completeTaskUnassignedIfMatch
          "printer_97").1.getTaskStatus "pC" = some .completed) ∧
    (("pC" : String) ∈
      ((TaskManager.addTask {}
        { id := "pC", interactableId := some "printer_97" }).completeTaskUnassignedIfMatch
          "printer_97").1.silentCompletions) := by
  have h := (c3_unassigned_first_match
    (TaskManager.addTask {} { id := "pC", interactableId := some "printer_97" })
    "printer_97").2.2
    { id := "pC", interactableId := some "printer_97" }
    (by decide) (by decide) (by decide)
  exact ⟨h.1, h.2.2.1, h.2.2.2.1, h.2.2.2.2⟩

/-! ## TriggerManager (`src/world/triggers.py`) -/

/-- A `pygame.Rect` as used by trigger zones. -/
structure Rect where
  left : ℚ
  top : ℚ
  width : ℚ
  height : ℚ
  deriving DecidableEq, Repr

/-- `point_in_rect` from `src/core/utils.py`:
`rect.left <= x <= rect.right and rect.top <= y <= rect.bottom`. -/
def pointInRect (p : ℚ × ℚ) (r : Rect) : Bool :=
  decide (r.left ≤ p.1 ∧ p.1 ≤ r.left + r.width ∧
          r.top ≤ p.2 ∧ p.2 ≤ r.top + r.height)

/-- pygame truthiness of a Rect: nonzero width and height. -/
def rectTruthy (r : Rect) : Bool := r.width ≠ 0 && r.height ≠ 0

/-- `distance(p, c) <= radius` with the Euclidean distance squared on
both sides (exact on rationals; equivalent for a nonnegative radius). -/
def withinRadius (p c : ℚ × ℚ) (r : ℚ) : Bool :=
  decide (0 ≤ r ∧ (p.1 - c.1) ^ 2 + (p.2 - c.2) ^ 2 ≤ r ^ 2)

/-- `TriggerType` enum. -/
inductive TriggerType where
  | enterZone
  | exitZone
  | stayInZone
  | interactNear
  | timeBased
  | taskCompletion
  deriving DecidableEq, Repr

/-- `TriggerCondition` dataclass. -/
structure TriggerCondition where
  triggerType : TriggerType
  zoneRect : Option Rect := none
  radius : Option ℚ := none
  centerPos : Option (ℚ × ℚ) := none
  timeCondition : Option String := none
  taskId : Option String := none
  stayDuration : ℚ := 0
  deriving DecidableEq, Repr

/-- The truthy zone rect of a condition (`if self.condition.zone_rect:`
— a degenerate pygame Rect is falsy). -/
def TriggerCondition.truthyZoneRect (c : TriggerCondition) : Option Rect :=
  match c.zoneRect with
  | some r => if rectTruthy r then some r else none
  | none => none

/-- A `Trigger`: per-trigger latch state plus a model of the opaque
callback — `callbackRuns` counts invocations and `callbackRaises` says
whether the Python callable raises (in which case `_execute` skips the
`triggered = True` assignment). -/
structure Trigger where
  id : String
  condition : TriggerCondition
  repeatable : Bool := false
  triggered : Bool := false
  active : Bool := true
  timeInZone : ℚ := 0
  playerInZone : Bool := false
  callbackRuns : ℕ := 0
  callbackRaises : Bool := false
  deriving DecidableEq, Repr

namespace Trigger

/-- `Trigger._check_enter_zone`. -/
def checkEnterZone (t : Trigger) (playerPos : ℚ × ℚ) : Bool × Trigger :=
  match t.condition.truthyZoneRect with
  | some r =>
      if pointInRect playerPos r && !t.playerInZone then
        (true, { t with playerInZone := true })
      else (false, t)
  | none =>
      match t.condition.centerPos, t.condition.radius with
      | some c, some r =>
          if r ≠ 0 then
            if withinRadius playerPos c r && !t.playerInZone then
              (true, { t with playerInZone := true })
            else (false, t)
          else (false, t)
      | _, _ => (false, t)

/-- `Trigger._check_exit_zone`. -/
def checkExitZone (t : Trigger) (playerPos : ℚ × ℚ) : Bool × Trigger :=
  match t.condition.truthyZoneRect with
  | some r =>
      if !pointInRect playerPos r && t.playerInZone then
        (true, { t with playerInZone := false })
      else (false, t)
  | none =>
      match t.condition.centerPos, t.condition.radius with
      | some c, some r =>
          if r ≠ 0 then
            if !withinRadius playerPos c r && t.playerInZone then
              (true, { t with playerInZone := false })
            else (false, t)
          else (false, t)
      | _, _ => (false, t)

/-- The zone-containment test shared by `_check_stay_in_zone`. -/
def inZoneOf (c : TriggerCondition) (playerPos : ℚ × ℚ) : Bool :=
  match c.truthyZoneRect with
  | some r => pointInRect playerPos r
  | none =>
      match c.centerPos, c.radius with
      | some cp, some r => if r ≠ 0 then withinRadius playerPos cp r else false
      | _, _ => false

/-- `Trigger._check_stay_in_zone`: accumulate `dt` while inside, fire
when the accumulated dwell reaches `stay_duration`, reset to zero on
exit. -/
def checkStayInZone (t : Trigger) (dt : ℚ) (playerPos : ℚ × ℚ) :
    Bool × Trigger :=
  if inZoneOf t.condition playerPos then
    (t.condition.stayDuration ≤ t.timeInZone + dt,
     { t with timeInZone := t.timeInZone + dt })
  else (false, { t with timeInZone := 0 })

/-- `Trigger._check_time_condition`. -/
def checkTimeCondition (t : Trigger) (currentTime : String) : Bool :=
  match t.condition.timeCondition with
  | some tc => tc ≠ "" && currentTime == tc
  | none => false

/-- `Trigger._check_task_completion`. -/
def checkTaskCompletion (t : Trigger) (completedTasks : List String) : Bool :=
  match t.condition.taskId with
  | some tid => tid ≠ "" && tid ∈ completedTasks
  | none => false

/-- `Trigger._execute`: invoke the callback; `triggered = True` runs
only if the callback did not raise (it sits after the call inside the
same `try`). -/
def execute (t : Trigger) : Trigger :=
  if t.callbackRaises then { t with callbackRuns := t.callbackRuns + 1 }
  else { t with callbackRuns := t.callbackRuns + 1, triggered := true }

/-- `Trigger.update`. -/
def update (t : Trigger) (dt : ℚ) (playerPos : ℚ × ℚ)
    (currentTime : String) (completedTasks : List String) : Trigger × Bool :=
  if !t.active || (t.triggered && !t.repeatable) then (t, false)
  else
    let r : Bool × Trigger :=
      match t.condition.triggerType with
      | .enterZone => t.checkEnterZone playerPos
      | .exitZone => t.checkExitZone playerPos
      | .stayInZone => t.checkStayInZone dt playerPos
      | .interactNear => (false, t)
      | .timeBased => (t.checkTimeCondition currentTime, t)
      | .taskCompletion => (t.checkTaskCompletion completedTasks, t)
    if r.1 then (r.2.execute, true) else (r.2, false)

end Trigger

/-- The `floor_triggers` update in `TriggerManager.add_trigger`:
create the floor's list when missing, then append the id. -/
def floorAdd (l : List (ℤ × List String)) (k : ℤ) (tid : String) :
    List (ℤ × List String) :=
  if l.any (fun p => p.1 = k) then
    l.map (fun p => if p.1 = k then (p.1, p.2 ++ [tid]) else p)
  else l ++ [(k, [tid])]

/-- Integer-keyed dictionary lookup for `floor_triggers`. -/
def zdictGet (l : List (ℤ × List String)) (k : ℤ) : Option (List String) :=
  (l.find? (fun p => p.1 = k)).map Prod.snd

/-- `TriggerManager` state. -/
structure TriggerManager where
  triggers : List (String × Trigger) := []
  floorTriggers : List (ℤ × List String) := []
  deriving DecidableEq, Repr

namespace TriggerManager

/-- `TriggerManager.add_trigger`. -/
def addTrigger (tm : TriggerManager) (t : Trigger) (floor : Option ℤ) :
    TriggerManager :=
  let tm1 := { tm with triggers := dictInsert tm.triggers t.id t }
  match floor with
  | none => tm1
  | some f => { tm1 with floorTriggers := floorAdd tm1.floorTriggers f t.id }

/-- The first loop of `TriggerManager.update` (commented
`# Triggers globaux` in the source, but it iterates
`self.triggers.values()`, which holds every registered trigger): update
each trigger in dictionary order, collecting the ids that fired. -/
def updatePhase1 (dt : ℚ) (playerPos : ℚ × ℚ) (currentTime : String)
    (completedTasks : List String) :
    List (String × Trigger) → List (String × Trigger) × List String
  | [] => ([], [])
  | (k, tr) :: rest =>
      let r := tr.update dt playerPos currentTime completedTasks
      let rr := updatePhase1 dt playerPos currentTime completedTasks rest
      ((k, r.1) :: rr.1, (if r.2 then [tr.id] else []) ++ rr.2)

/-- The second loop of `TriggerManager.update`: re-update every trigger
scoped to the current floor (threading the trigger dictionary mutated by
the first loop), appending ids not already collected. -/
def updatePhase2 (dt : ℚ) (playerPos : ℚ × ℚ) (currentTime : String)
    (completedTasks : List String) :
    List String → List (String × Trigger) × List String →
    List (String × Trigger) × List String
  | [], acc => acc
  | tid :: rest, acc =>
      match dictGet acc.1 tid with
      | none => updatePhase2 dt playerPos currentTime completedTasks rest acc
      | some tr =>
          let r := tr.update dt playerPos currentTime completedTasks
          updatePhase2 dt playerPos currentTime completedTasks rest
            (dictInsert acc.1 tid r.1,
             acc.2 ++ (if r.2 && !(tid ∈ acc.2 : Bool) then [tid] else []))

/-- `TriggerManager.update`. -/
def update (tm : TriggerManager) (dt : ℚ) (playerPos : ℚ × ℚ)
    (currentFloor : ℤ) (currentTime : String)
    (completedTasks : List String) : TriggerManager × List String :=
  let ph1 := updatePhase1 dt playerPos currentTime completedTasks tm.triggers
  let ph2 := updatePhase2 dt playerPos currentTime completedTasks
    ((zdictGet tm.floorTriggers currentFloor).getD []) ph1
  ({ tm with triggers := ph2.1 }, ph2.2)

end TriggerManager

/-- C4 (code bug in `TriggerManager.update`): the loop the source
comments as the global-trigger pass iterates `self.triggers.values()`,
which contains every registered trigger. Consequently (a) a time-based
trigger registered only for floor 5 fires during an update for floor 3
(the claim says it is not evaluated at all), and (b) a repeatable
trigger scoped to the current floor is evaluated twice per update call —
its callback runs twice — because the floor pass re-updates it after the
first pass already did (the claim says exactly once). -/
theorem c4_update_touches_other_floors :
    ((TriggerManager.update
        (TriggerManager.addTrigger {}
          { id := "warn5",
            condition := { triggerType := .timeBased,
                           timeCondition := some "08:31" } }
          (some 5))
        1 (0, 0) 3 "08:31" []).2 = ["warn5"]) ∧
    (dictGet (TriggerManager.update
        (TriggerManager.addTrigger {}
          { id := "warn5",
            condition := { triggerType := .timeBased,
                           timeCondition := some "08:31" } }
          (some 5))
        1 (0, 0) 3 "08:31" []).1.triggers "warn5"
      = some { id := "warn5",
               condition := { triggerType := .timeBased,
                              timeCondition := some "08:31" },
               triggered := true, callbackRuns := 1 }) ∧
    (dictGet (TriggerManager.update
        (TriggerManager.addTrigger {}
          { id := "rep3",
            condition := { triggerType := .timeBased,
                           timeCondition := some "08:31" },
            repeatable := true }
          (some 3))
        1 (0, 0) 3 "08:31" []).1.triggers "rep3"
      = some { id := "rep3",
               condition := { triggerType := .timeBased,
                              timeCondition := some "08:31" },
               repeatable := true, triggered := true, callbackRuns := 2 }) := by
  refine ⟨?_, ?_, ?_⟩ <;> decide

/-! ## Elevator (`src/world/elevator.py`) -/

/-- `clamp` from `src/core/utils.py`. -/
def clamp (value minValue maxValue : ℚ) : ℚ := max minValue (min value maxValue)

/-- `lerp` from `src/core/utils.py`. -/
def lerp (start stop t : ℚ) : ℚ := start + (stop - start) * clamp t 0 1

/-- Python `set.add` on an integer set modelled as a duplicate-free
list. -/
def zsetAdd (s : List ℤ) (x : ℤ) : List ℤ := if x ∈ s then s else s ++ [x]

/-- `ElevatorState` enum. -/
inductive ElevatorState where
  | idle
  | movingUp
  | movingDown
  | openingDoors
  | closingDoors
  | doorsOpen
  deriving DecidableEq, Repr

/-- `Elevator` state. The three `on_*` callbacks are opaque callables;
they are modelled by invocation logs/counters (`floorReachedCalls`
records the floor argument of each `on_floor_reached` call). Defaults
mirror `__init__` with `MIN_FLOOR = 90` from `settings.py`. -/
structure Elevator where
  currentFloor : ℤ := 90
  targetFloor : ℤ := 90
  state : ElevatorState := .idle
  animationTime : ℚ := 0
  doorAnimationDuration : ℚ := 1
  floorTravelTime : ℚ := 2
  displayFloor : ℚ := 90
  callQueue : List ℤ := []
  totalUses : ℕ := 0
  floorsVisited : List ℤ := []
  floorReachedCalls : List ℤ := []
  doorsOpenedCalls : ℕ := 0
  doorsClosedCalls : ℕ := 0
  deriving DecidableEq, Repr

namespace Elevator

/-- `Elevator.__init__` (at the configured starting floor 90). -/
def init : Elevator := {}

/-- `Elevator._is_valid_floor`: `MIN_FLOOR <= floor <= MAX_FLOOR` with
90/98 from `settings.py`. -/
def isValidFloor (floor : ℤ) : Bool := 90 ≤ floor && floor ≤ 98

/-- `Elevator._start_opening_doors`. -/
def startOpeningDoors (e : Elevator) : Elevator :=
  { e with state := .openingDoors, animationTime := 0 }

/-- `Elevator._start_closing_doors`. -/
def startClosingDoors (e : Elevator) : Elevator :=
  { e with state := .closingDoors, animationTime := 0 }

/-- `Elevator._process_next_call`: FIFO pop; open doors when already at
the floor, otherwise record the target, reset the elapsed-time
accumulator and enter the matching motion state. -/
def processNextCall (e : Elevator) : Elevator :=
  match e.callQueue with
  | [] => e
  | nextFloor :: rest =>
      let e1 := { e with callQueue := rest }
      if nextFloor = e1.currentFloor then e1.startOpeningDoors
      else
        let e2 := { e1 with targetFloor := nextFloor, animationTime := 0 }
        if e2.currentFloor < nextFloor then { e2 with state := .movingUp }
        else { e2 with state := .movingDown }

/-- `Elevator.call`. -/
def call (e : Elevator) (floor : ℤ) : Elevator × Bool :=
  if ¬ isValidFloor floor then (e, false)
  else if floor = e.currentFloor ∧ e.state = .idle then
    (e.startOpeningDoors, true)
  else
    let e1 := if floor ∈ e.callQueue then e
              else { e with callQueue := e.callQueue ++ [floor] }
    if e1.state = .idle then (e1.processNextCall, true) else (e1, true)

/-- `Elevator.go_to`: clear the queue, enqueue only this floor, close
doors first when open, count the use. -/
def goTo (e : Elevator) (floor : ℤ) : Elevator × Bool :=
  if ¬ isValidFloor floor then (e, false)
  else
    let e1 := { e with callQueue := [floor] }
    let e2 := if e1.state = .doorsOpen then e1.startClosingDoors
              else if e1.state = .idle then e1.processNextCall
              else e1
    ({ e2 with totalUses := e2.totalUses + 1 }, true)

/-- Arrival shared by both motion handlers: snap to the target floor,
record it in `floors_visited`, start opening the doors and invoke
`on_floor_reached`. -/
def arrive (e : Elevator) : Elevator :=
  let e1 := { e with currentFloor := e.targetFloor,
                     displayFloor := (e.targetFloor : ℚ),
                     floorsVisited := zsetAdd e.floorsVisited e.targetFloor }
  let e2 := e1.startOpeningDoors
  { e2 with floorReachedCalls := e2.floorReachedCalls ++ [e2.currentFloor] }

/-- `Elevator._update_moving_up`. -/
def updateMovingUp (e : Elevator) : Elevator :=
  if (((e.targetFloor - e.currentFloor).natAbs : ℚ) * e.floorTravelTime)
      ≤ e.animationTime then e.arrive
  else
    { e with displayFloor :=
        (lerp ((e.targetFloor - (e.targetFloor - e.currentFloor) : ℤ) : ℚ)
          (e.targetFloor : ℚ)
          (e.animationTime /
            (((e.targetFloor - e.currentFloor).natAbs : ℚ) * e.floorTravelTime))) }

/-- `Elevator._update_moving_down` (the travel count is not taken
absolute here, exactly as in the source). -/
def updateMovingDown (e : Elevator) : Elevator :=
  if (((e.currentFloor - e.targetFloor : ℤ) : ℚ) * e.floorTravelTime)
      ≤ e.animationTime then e.arrive
  else
    { e with displayFloor :=
        (lerp ((e.targetFloor + (e.currentFloor - e.targetFloor) : ℤ) : ℚ)
          (e.targetFloor : ℚ)
          (e.animationTime /
            (((e.currentFloor - e.targetFloor : ℤ) : ℚ) * e.floorTravelTime))) }

/-- `Elevator._update_opening_doors`. -/
def updateOpeningDoors (e : Elevator) : Elevator :=
  if e.doorAnimationDuration ≤ e.animationTime then
    { e with state := .doorsOpen, doorsOpenedCalls := e.doorsOpenedCalls + 1 }
  else e

/-- `Elevator._update_closing_doors`. -/
def updateClosingDoors (e : Elevator) : Elevator :=
  if e.doorAnimationDuration ≤ e.animationTime then
    let e1 := { e with state := .idle, doorsClosedCalls := e.doorsClosedCalls + 1 }
    if e1.callQueue.isEmpty then e1 else e1.processNextCall
  else e

/-- The state dispatch of `Elevator.update`, after the `dt`
accumulation. -/
def dispatch (e : Elevator) : Elevator :=
  match e.state with
  | .movingUp => e.updateMovingUp
  | .movingDown => e.updateMovingDown
  | .openingDoors => e.updateOpeningDoors
  | .closingDoors => e.updateClosingDoors
  | .doorsOpen => e
  | .idle => if e.callQueue.isEmpty then e else e.processNextCall

/-- `Elevator.update`: accumulate `dt`, then dispatch on the state. -/
def update (e : Elevator) (dt : ℚ) : Elevator :=
  dispatch { e with animationTime := e.animationTime + dt }

/-- Repeated `update` calls over a list of frame deltas. -/
def applyUpdates (e : Elevator) (dts : List ℚ) : Elevator :=
  dts.foldl update e

/-- The moving phase of the 90 → 92 call scenario: state `MovingUp`
towards floor 92 with elapsed time `a`, nothing yet visited or fired. -/
def MovPhase (e : Elevator) (a : ℚ) : Prop :=
  e.state = .movingUp ∧ e.currentFloor = 90 ∧ e.targetFloor = 92 ∧
  e.animationTime = a ∧ e.callQueue = [] ∧ e.floorsVisited = [] ∧
  e.floorReachedCalls = [] ∧ e.doorsOpenedCalls = 0 ∧
  e.doorAnimationDuration = 1 ∧ e.floorTravelTime = 2

/-- The door-opening phase after arrival at floor 92. -/
def OpenPhase (e : Elevator) (a : ℚ) : Prop :=
  e.state = .openingDoors ∧ e.currentFloor = 92 ∧ e.animationTime = a ∧
  e.callQueue = [] ∧ e.floorsVisited = [92] ∧ e.floorReachedCalls = [92] ∧
  e.doorsOpenedCalls = 0 ∧ e.doorAnimationDuration = 1

/-- The final phase: doors open at floor 92, both callbacks fired once. -/
def DonePhase (e : Elevator) : Prop :=
  e.state = .doorsOpen ∧ e.currentFloor = 92 ∧ e.callQueue = [] ∧
  e.floorsVisited = [92] ∧ e.floorReachedCalls = [92] ∧ e.doorsOpenedCalls = 1

end Elevator

/-! ### Elevator lemmas -/

theorem Elevator.movPhase_step (e : Elevator) (a dt : ℚ) (h : e.MovPhase a)
    (hdt : 0 ≤ dt) :
    (4 ≤ a + dt → (e.update dt).OpenPhase 0) ∧
    (a + dt < 4 → (e.update dt).MovPhase (a + dt)) := by
  obtain ⟨cf, tf, st, anim, dad, ftt, df, q, tu, fv, frc, doc, dcc⟩ := e
  obtain ⟨h1, h2, h3, h4, h5, h6, h7, h8, h9, h10⟩ := h
  subst h1 h2 h3 h4 h5 h6 h7 h8 h9 h10
  constructor
  · intro hge
    unfold Elevator.update Elevator.dispatch
    dsimp only
    unfold Elevator.updateMovingUp
    rw [if_pos (by norm_num; linarith)]
    unfold Elevator.arrive Elevator.startOpeningDoors
    refine ⟨rfl, rfl, rfl, rfl, ?_, rfl, rfl, rfl⟩
    show zsetAdd [] 92 = [92]
    decide
  · intro hlt
    unfold Elevator.update Elevator.dispatch
    dsimp only
    unfold Elevator.updateMovingUp
    rw [if_neg (by norm_num; exact hlt)]
    exact ⟨rfl, rfl, rfl, rfl, rfl, rfl, rfl, rfl, rfl, rfl⟩

theorem Elevator.openPhase_step (e : Elevator) (a dt : ℚ) (h : e.OpenPhase a) :
    (1 ≤ a + dt → (e.update dt).DonePhase) ∧
    (a + dt < 1 → (e.update dt).OpenPhase (a + dt)) := by
  obtain ⟨cf, tf, st, anim, dad, ftt, df, q, tu, fv, frc, doc, dcc⟩ := e
  obtain ⟨h1, h2, h3, h4, h5, h6, h7, h8⟩ := h
  subst h1 h2 h3 h4 h5 h6 h7 h8
  constructor
  · intro hge
    unfold Elevator.update Elevator.dispatch
    dsimp only
    unfold Elevator.updateOpeningDoors
    rw [if_pos (by exact hge)]
    exact ⟨rfl, rfl, rfl, rfl, rfl, rfl⟩
  · intro hlt
    unfold Elevator.update Elevator.dispatch
    dsimp only
    unfold Elevator.updateOpeningDoors
    rw [if_neg (by exact not_le.2 hlt)]
    exact ⟨rfl, rfl, rfl, rfl, rfl, rfl, rfl, rfl⟩

theorem Elevator.donePhase_step (e : Elevator) (dt : ℚ) (h : e.DonePhase) :
    (e.update dt).DonePhase := by
  obtain ⟨cf, tf, st, anim, dad, ftt, df, q, tu, fv, frc, doc, dcc⟩ := e
  obtain ⟨h1, h2, h3, h4, h5, h6⟩ := h
  subst h1 h2 h3 h4 h5 h6
  exact ⟨rfl, rfl, rfl, rfl, rfl, rfl⟩

theorem Elevator.done_run (L : List ℚ) :
    ∀ e : Elevator, e.DonePhase → (e.applyUpdates L).DonePhase := by
  induction L with
  | nil => exact fun e h => h
  | cons d rest ih => exact fun e h => ih (e.update d) (Elevator.donePhase_step e d h)

theorem Elevator.open_run (L : List ℚ) :
    ∀ (e : Elevator) (a : ℚ), (∀ d ∈ L, 0 ≤ d) → e.OpenPhase a →
    0 ≤ a → a < 1 → 1 ≤ a + L.sum → (e.applyUpdates L).DonePhase := by
  induction L with
  | nil =>
      intro e a _ ho ha0 ha1 hsum
      rw [List.sum_nil] at hsum
      linarith
  | cons d rest ih =>
      intro e a hn ho ha0 ha1 hsum
      have hd0 : 0 ≤ d := hn d (by simp)
      have hrest : ∀ x ∈ rest, 0 ≤ x := fun x hx => hn x (by simp [hx])
      rw [List.sum_cons] at hsum
      by_cases hcase : 1 ≤ a + d
      · exact Elevator.done_run rest _ ((Elevator.openPhase_step e a d ho).1 hcase)
      · push_neg at hcase
        exact ih (e.update d) (a + d) hrest
          ((Elevator.openPhase_step e a d ho).2 hcase)
          (by linarith) hcase (by linarith)

theorem Elevator.arr_preserved (L : List ℚ) :
    ∀ e : Elevator, (∀ d ∈ L, 0 ≤ d) →
    ((∃ a, 0 ≤ a ∧ a < 1 ∧ e.OpenPhase a) ∨ e.DonePhase) →
    ((∃ a, 0 ≤ a ∧ a < 1 ∧ (e.applyUpdates L).OpenPhase a) ∨
      (e.applyUpdates L).DonePhase) := by
  induction L with
  | nil => exact fun e _ h => h
  | cons d rest ih =>
      intro e hn h
      have hd0 : 0 ≤ d := hn d (by simp)
      have hrest : ∀ x ∈ rest, 0 ≤ x := fun x hx => hn x (by simp [hx])
      rcases h with ⟨a, ha0, ha1, ho⟩ | hdone
      · by_cases hcase : 1 ≤ a + d
        · exact ih (e.update d) hrest
            (Or.inr ((Elevator.openPhase_step e a d ho).1 hcase))
        · push_neg at hcase
          exact ih (e.update d) hrest
            (Or.inl ⟨a + d, by linarith, hcase,
              (Elevator.openPhase_step e a d ho).2 hcase⟩)
      · exact ih (e.update d) hrest (Or.inr (Elevator.donePhase_step e d hdone))

theorem Elevator.arr_run (L : List ℚ) (e : Elevator)
    (hn : ∀ d ∈ L, 0 ≤ d)
    (h : (∃ a, 0 ≤ a ∧ a < 1 ∧ e.OpenPhase a) ∨ e.DonePhase)
    (hsum : 1 ≤ L.sum) : (e.applyUpdates L).DonePhase := by
  rcases h with ⟨a, ha0, ha1, ho⟩ | hdone
  · exact Elevator.open_run L e a hn ho ha0 ha1 (by linarith)
  · exact Elevator.done_run L e hdone

theorem Elevator.mov_run (L : List ℚ) :
    ∀ (e : Elevator) (a : ℚ), (∀ d ∈ L, 0 ≤ d) → e.MovPhase a →
    0 ≤ a → a < 4 → 4 ≤ a + L.sum →
    ((∃ b, 0 ≤ b ∧ b < 1 ∧ (e.applyUpdates L).OpenPhase b) ∨
      (e.applyUpdates L).DonePhase) := by
  induction L with
  | nil =>
      intro e a _ hm ha0 ha4 hsum
      rw [List.sum_nil] at hsum
      linarith
  | cons d rest ih =>
      intro e a hn hm ha0 ha4 hsum
      have hd0 : 0 ≤ d := hn d (by simp)
      have hrest : ∀ x ∈ rest, 0 ≤ x := fun x hx => hn x (by simp [hx])
      rw [List.sum_cons] at hsum
      by_cases hcase : 4 ≤ a + d
      · exact Elevator.arr_preserved rest (e.update d) hrest
          (Or.inl ⟨0, le_refl 0, by norm_num,
            (Elevator.movPhase_step e a d hm hd0).1 hcase⟩)
      · push_neg at hcase
        exact ih (e.update d) (a + d) hrest
          ((Elevator.movPhase_step e a d hm hd0).2 hcase)
          (by linarith) hcase (by linarith)

/-- C9 (amended): from Idle at floor 90, after `call(92)`, any sequence
of non-negative updates that accumulates at least `2*floor_travel_time`
of travel, followed by further updates accumulating at least
`door_animation_duration`, leaves the elevator at floor 92 in
`DoorsOpen`, with 92 recorded in `floors_visited` and `on_floor_reached`
and `on_doors_opened` each invoked exactly once. (The movement overshoot
is discarded on arrival — a single update whose total merely reaches
`2*floor_travel_time + door_animation_duration + ε` ends in
`OpeningDoors`; see the counterexample.) -/
theorem c9_elevator_call_scenario (A B : List ℚ)
    (hA : ∀ d ∈ A, 0 ≤ d) (hB : ∀ d ∈ B, 0 ≤ d)
    (hsA : 2 * Elevator.init.floorTravelTime ≤ A.sum)
    (hsB : Elevator.init.doorAnimationDuration ≤ B.sum) :
    ((Elevator.init.call 92).1.applyUpdates (A ++ B)).currentFloor = 92 ∧
    ((Elevator.init.call 92).1.applyUpdates (A ++ B)).state = .doorsOpen ∧
    (92 : ℤ) ∈ ((Elevator.init.call 92).1.applyUpdates (A ++ B)).floorsVisited ∧
    ((Elevator.init.call 92).1.applyUpdates (A ++ B)).floorReachedCalls = [92] ∧
    ((Elevator.init.call 92).1.applyUpdates (A ++ B)).doorsOpenedCalls = 1 := by
  have hmv : (Elevator.init.call 92).1.MovPhase 0 := by
    refine ⟨?_, ?_, ?_, ?_, ?_, ?_, ?_, ?_, ?_, ?_⟩ <;> rfl
  have hsA' : (4 : ℚ) ≤ A.sum := by
    have hft : Elevator.init.floorTravelTime = 2 := rfl
    rw [hft] at hsA
    linarith
  have hsB' : (1 : ℚ) ≤ B.sum := by
    have hda : Elevator.init.doorAnimationDuration = 1 := rfl
    rw [hda] at hsB
    exact hsB
  have happ : (Elevator.init.call 92).1.applyUpdates (A ++ B)
      = (((Elevator.init.call 92).1.applyUpdates A).applyUpdates B) := by
    unfold Elevator.applyUpdates
    rw [List.foldl_append]
  have harr := Elevator.mov_run A (Elevator.init.call 92).1 0 hA hmv
    (le_refl 0) (by norm_num) (by rw [zero_add]; exact hsA')
  have hdone := Elevator.arr_run B ((Elevator.init.call 92).1.applyUpdates A)
    hB harr hsB'
  rw [happ]
  obtain ⟨d1, d2, d3, d4, d5, d6⟩ := hdone
  exact ⟨d2, d1, by rw [d4]; exact List.mem_singleton.2 rfl, d5, d6⟩

/-- C9 counterexample: a single `update` call whose `dt` equals
`2*floor_travel_time + door_animation_duration + 1/4` (cumulative sum
`2*2 + 1 + 1/4 = 21/4`) arrives at floor 92 but resets the animation
clock on arrival, discarding the overshoot: the elevator is left in
`OpeningDoors`, not `DoorsOpen` as the claim requires. -/
theorem c9_single_update_stalls_opening :
    ((21/4 : ℚ) = 2 * Elevator.init.floorTravelTime +
      Elevator.init.doorAnimationDuration + 1/4) ∧
    ((Elevator.init.call 92).1.applyUpdates [21/4]).currentFloor = 92 ∧
    ((Elevator.init.call 92).1.applyUpdates [21/4]).state
      = ElevatorState.openingDoors ∧
    ¬ ((Elevator.init.call 92).1.applyUpdates [21/4]).state
      = ElevatorState.doorsOpen := by
  have he1 : (Elevator.init.call 92).1
      = ⟨90, 92, .movingUp, 0, 1, 2, 90, [], 0, [], [], 0, 0⟩ := by
    decide
  have hupd : (Elevator.init.call 92).1.applyUpdates [21/4]
      = ((⟨90, 92, .movingUp, 0, 1, 2, 90, [], 0, [], [], 0, 0⟩ :
          Elevator).update (21/4)) := by
    rw [show (Elevator.init.call 92).1.applyUpdates [21/4]
        = (Elevator.init.call 92).1.update (21/4) from rfl, he1]
  have hfin : ((⟨90, 92, .movingUp, 0, 1, 2, 90, [], 0, [], [], 0, 0⟩ :
      Elevator).update (21/4)).currentFloor = 92 ∧
      ((⟨90, 92, .movingUp, 0, 1, 2, 90, [], 0, [], [], 0, 0⟩ :
        Elevator).update (21/4)).state = ElevatorState.openingDoors := by
    unfold Elevator.update Elevator.dispatch
    dsimp only
    unfold Elevator.updateMovingUp
    rw [if_pos (by norm_num)]
    exact ⟨rfl, rfl⟩
  refine ⟨by norm_num [Elevator.init], ?_, ?_, ?_⟩
  · rw [hupd]; exact hfin.1
  · rw [hupd]; exact hfin.2
  · rw [hupd, hfin.2]
    decide

/-- C9 witness: one four-second update to travel the two floors, then
one one-second update for the doors. -/
theorem c9_elevator_call_scenario_witness :
    ((Elevator.init.call 92).1.applyUpdates ([4] ++ [1])).currentFloor = 92 ∧
    ((Elevator.init.call 92).1.applyUpdates ([4] ++ [1])).state = .doorsOpen ∧
    (92 : ℤ) ∈ ((Elevator.init.call 92).1.applyUpdates ([4] ++ [1])).floorsVisited ∧
    ((Elevator.init.call 92).1.applyUpdates ([4] ++ [1])).floorReachedCalls = [92] ∧
    ((Elevator.init.call 92).1.applyUpdates ([4] ++ [1])).doorsOpenedCalls = 1 :=
  c9_elevator_call_scenario [4] [1]
    (by intro d hd; rw [List.mem_singleton] at hd; rw [hd]; norm_num)
    (by intro d hd; rw [List.mem_singleton] at hd; rw [hd]; norm_num)
    (by show (2 : ℚ) * 2 ≤ [(4 : ℚ)].sum; rw [List.sum_singleton]; norm_num)
    (by show (1 : ℚ) ≤ [(1 : ℚ)].sum; rw [List.sum_singleton])
